import Mathlib

/-!
Verification of the poplar micro-grid simulation engine.

Shallow embedding of the core data model and operations of the repository:
`IdealStorage` (src/poplar/storage.py), the `Bid`/`Offer` auction helpers
(src/poplar/econ.py), the `Source`/`Load` market-facing contract
(src/poplar/sources.py, src/poplar/loads.py) and the `Gateway` settlement
engine (src/poplar/devices.py).

Python floats are modelled as rationals (`ℚ`); the arithmetic performed by
the engine is exact on the inputs considered.  Exceptions raised by the
Python code (ZeroDivisionError, KeyError from `find_node`, the explicit
`raise Exception('PV over commited')`) are modelled by `Option`: `none`
means the call raised.
-/

namespace Poplar

/-! ## IdealStorage (src/poplar/storage.py) -/

/-- State of one `IdealStorage` device (src/poplar/storage.py, `IdealStorage`).
Fields mirror the attributes set in `IdealStorage.__init__` and mutated by
`power_io`.  `state_series` holds the per-call state-of-charge samples
(`state_dict`, keyed by the global timestamp, mirrors `state_series`
one-to-one inside a step and is not modelled separately; `timeseries` is
noted "not currently used" in the source).  `loss_occurence` is an `ℕ`
counter; every other accumulator is a float, modelled as `ℚ`. -/
structure IdealStorage where
  nominal_capacity : ℚ
  state : ℚ
  throughput : ℚ
  surplus : ℚ
  drained_hours : ℚ
  full_hours : ℚ
  shortfall : ℚ
  state_series : List ℚ
  hours : List ℚ
  loss_occurence : ℕ
  c_in : List ℚ
  c_out : List ℚ
  buy : ℚ
deriving Repr, DecidableEq

/-- `IdealStorage.__init__(i_capacity)`: the device starts full
(`self.state = i_capacity  # start full`) with every utilisation counter at
zero.  The constructor takes no argument for the initial state of charge
(its only parameters are the capacity and the battery chemistry). -/
def IdealStorage.init (i_capacity : ℚ) : IdealStorage :=
  { nominal_capacity := i_capacity
    state := i_capacity
    throughput := 0
    surplus := 0
    drained_hours := 0
    full_hours := 0
    shortfall := 0
    state_series := []
    hours := []
    loss_occurence := 0
    c_in := []
    c_out := []
    buy := 1 / 100000 }

/-- `IdealStorage.soc`: `state / nominal_capacity`. -/
def IdealStorage.soc (s : IdealStorage) : ℚ :=
  s.state / s.nominal_capacity

/-- `IdealStorage.hasenergy`: returns `state`. -/
def IdealStorage.hasenergy (s : IdealStorage) : ℚ := s.state

/-- `IdealStorage.needsenergy`: returns `state - nominal_capacity`
(non-positive when the state respects the capacity bound). -/
def IdealStorage.needsenergy (s : IdealStorage) : ℚ :=
  s.state - s.nominal_capacity

/-- `IdealStorage.power_io(power, hours=1.)` (src/poplar/storage.py).
Returns the updated device together with the return value
`e_delta - energy` (delivered energy minus requested energy).
The three `if` branches of the source are mutually exclusive
(`energy > 0`, `energy < 0`, `energy == 0`) and are rendered as an
if/else-if chain; the final state-of-charge sample is appended after the
branches, exactly as in the source. -/
def IdealStorage.power_io (s0 : IdealStorage) (power : ℚ) (hours : ℚ := 1) :
    IdealStorage × ℚ :=
  let energy := power * hours
  let s0 := { s0 with hours := s0.hours ++ [hours] }
  let step : IdealStorage × ℚ :=
    if energy > 0 then
      let s := { s0 with c_in := s0.c_in ++ [energy / s0.nominal_capacity] }
      let max_in := s.nominal_capacity - s.state
      let e_delta := min energy max_in
      let s := { s with state := s.state + e_delta }
      let s :=
        if e_delta = energy then s
        else
          -- energy has not all been stored
          let surplus := energy - e_delta
          let active_time := surplus / energy * hours
          { s with surplus := s.surplus + surplus
                   full_hours := s.full_hours + (hours - active_time) }
      ({ s with throughput := s.throughput + e_delta }, e_delta)
    else if energy < 0 then
      let s := { s0 with c_out := s0.c_out ++ [energy / s0.nominal_capacity] }
      let max_out := s.state
      let e_delta := - min (-energy) max_out
      let s := { s with state := s.state + e_delta }
      let s :=
        if e_delta = energy then s
        else
          -- energy has not all been supplied
          let shortfall := max_out + energy
          let shortfall_time := shortfall / energy * hours
          { s with shortfall := s.shortfall + shortfall
                   drained_hours := s.drained_hours + shortfall_time
                   loss_occurence := s.loss_occurence + 1 }
      (s, e_delta)
    else
      let s :=
        if s0.state = 0 then { s0 with drained_hours := s0.drained_hours + hours }
        else s0
      let s :=
        if s.state = s.nominal_capacity then { s with full_hours := s.full_hours + hours }
        else s
      (s, 0)
  let s := step.1
  let t_soc := s.state / s.nominal_capacity
  ({ s with state_series := s.state_series ++ [t_soc] }, step.2 - energy)

/-- Run a sequence of `power_io` calls (each a `(power, hours)` pair) on a
storage device, keeping the device state. -/
def IdealStorage.runCalls (s : IdealStorage) : List (ℚ × ℚ) → IdealStorage
  | [] => s
  | c :: rest => IdealStorage.runCalls (s.power_io c.1 c.2).1 rest

/-! ## Bids and offers (src/poplar/econ.py) -/

/-- `Bid` (src/poplar/econ.py): a priced request to buy energy.  Object ids
(`id()` in Python) are modelled as naturals.  `__init__` sets
`self.storage = False`; storage devices overwrite the flag after
construction. -/
structure Bid where
  obj_id : ℕ
  wh : ℚ
  value : ℚ
  storage : Bool
deriving Repr, DecidableEq

/-- `Offer` (src/poplar/econ.py): a priced availability of energy. -/
structure Offer where
  obj_id : ℕ
  wh : ℚ
  value : ℚ
  storage : Bool
deriving Repr, DecidableEq

/-- Eligibility filter applied by `low_offer` to a candidate offer:
the offer's `obj_id` differs from the bid's, and the pair is not a
storage-bid/storage-offer match. -/
def eligibleFor (bid : Bid) (o : Offer) : Prop :=
  o.obj_id ≠ bid.obj_id ∧ ¬(bid.storage = true ∧ o.storage = true)

instance (bid : Bid) (o : Offer) : Decidable (eligibleFor bid o) := by
  unfold eligibleFor; infer_instance

/-- One iteration of the `for node in nodes` loop of `low_offer`
(src/poplar/econ.py lines 105-115).  The accumulator is the running
`(low_offer, offer_value)` pair; a `none` entry models a node whose
`offer(bid.obj_id)` returned `None`. -/
def lowOfferStep (bid : Bid) (acc : Option Offer × ℚ) (offer? : Option Offer) :
    Option Offer × ℚ :=
  match offer? with
  | none => acc
  | some offer =>
    if offer.value < acc.2 ∧ eligibleFor bid offer then (some offer, offer.value)
    else acc

/-- `low_offer(nodes, bid)` (src/poplar/econ.py lines 99-116).  The argument
list holds, in network iteration order, each node's `offer(bid.obj_id)`
result.  `offer_value` starts at `100.`, so offers priced at 100 or above are
never selected.  (The `bid is None` default of the source never occurs in the
engine: `get_energy` always passes a bid.) -/
def low_offer (offers : List (Option Offer)) (bid : Bid) : Option Offer :=
  (offers.foldl (lowOfferStep bid) (none, 100)).1

/-! ## Devices and the Gateway settlement engine
(src/poplar/devices.py, src/poplar/loads.py, src/poplar/sources.py)

The engine is embedded for one settlement step (one `Gateway.calc` call):
the per-timestep log dictionaries `credits` / `debits` / `balance` /
`demand` / `source` / `outage`, keyed by the global timestamp `env.time`,
are modelled by their entry at the current key — nothing in the engine ever
writes to a past key, so older entries are frozen.  A `Load`'s
`needsenergy` caches `demand(key)` into `balance[key]` on first access in a
step, and a `Source`'s `energy` caches its output likewise; both caches are
modelled by the corresponding field holding the already-cached value for
the current step (the first read happens in `calc`'s aggregation phase,
before anything observes the device).  The network graph built by
`Model.graph` contains exactly the parent-child edges of the composition
tree, so `nx.shortest_path` walks are tree walks: `dest_gateway(obj_id)`
(the first `Gateway` met when walking the shortest path backwards from the
destination) is the gateway whose `children` list contains the node. -/

/-- A `Load` (src/poplar/loads.py) as seen by the engine for the current
step.  `balance` is `balance[key]` (cached demand plus settled deliveries),
`balance_sum` is `sum(self.balance.values())` over the run (read by
`enabled()`), `dmnd` is `dmnd[key]`, `total_annual` is `total()`. -/
structure LoadD where
  lid : ℕ
  balance : ℚ
  balance_sum : ℚ
  dmnd : ℚ
  per_kwh : ℚ
  droop_ratio : ℚ
  total_annual : ℚ
  interval : ℚ
deriving Repr, DecidableEq

/-- A `Source` (src/poplar/sources.py).  `balance` is the cached
`balance[key]`, `debits` the entry `debits[key]`, `generation` the
cumulative `sum(self.generation.values())` read by `total_gen()`; charge
controllers set `self.gen = True` and expose `nameplate()`. -/
structure SourceD where
  sid : ℕ
  balance : ℚ
  debits : ℚ
  generation : ℚ
  gen : Bool
  nameplate : ℚ
deriving Repr, DecidableEq

/-- An `IdealStorage` device together with its network id. -/
structure StorageNode where
  sid : ℕ
  dev : IdealStorage
deriving Repr, DecidableEq

/-- A `Gateway` (src/poplar/devices.py lines 185-231).  The five per-step
log entries are the current timestep's; `outage` is `outage[key]` (absent
entry = 0, `get_energy` writes 1); `shortfall` and `lolh` are the cumulative
counters; `net_l` is the `net_l` list, which the poplar `calc` never
appends to. -/
structure GatewayD where
  gid : ℕ
  children : List ℕ
  credits : ℚ
  debits : ℚ
  balance : ℚ
  demand : ℚ
  source : ℚ
  outage : ℕ
  net_l : List ℚ
  shortfall : ℚ
  lolh : ℚ
  timestep : ℚ
  export_power : Bool
  domain_r : ℚ
deriving Repr, DecidableEq

/-- The whole network reachable from the root: the shared graph's nodes,
grouped by kind.  `total_time` is the global `env.total_time`. -/
structure World where
  loads : List LoadD
  sources : List SourceD
  storages : List StorageNode
  gateways : List GatewayD
  total_time : ℚ
deriving Repr, DecidableEq

def World.findLoad (w : World) (i : ℕ) : Option LoadD :=
  w.loads.find? (fun l => decide (l.lid = i))

def World.findSource (w : World) (i : ℕ) : Option SourceD :=
  w.sources.find? (fun s => decide (s.sid = i))

def World.findStorage (w : World) (i : ℕ) : Option StorageNode :=
  w.storages.find? (fun s => decide (s.sid = i))

def World.findGateway (w : World) (i : ℕ) : Option GatewayD :=
  w.gateways.find? (fun g => decide (g.gid = i))

def World.isGateway (w : World) (i : ℕ) : Bool :=
  (w.findGateway i).isSome

/-- `find_node(i).needsenergy()` for a device node: a `Load` returns its
cached `balance[key]`, an `IdealStorage` returns `state - nominal_capacity`,
a `Source` returns `0.`; `none` models a node without the attribute or an
id `find_node` cannot resolve (Python `KeyError`). -/
def World.needsOf (w : World) (i : ℕ) : Option ℚ :=
  match w.findLoad i with
  | some l => some l.balance
  | none =>
    match w.findStorage i with
    | some st => some st.dev.needsenergy
    | none =>
      match w.findSource i with
      | some _ => some 0
      | none => none

/-- `find_node(i).hasenergy()`: a `Source` returns its cached output
balance, an `IdealStorage` returns `state`; a `Load` has no `hasenergy`. -/
def World.hasOf (w : World) (i : ℕ) : Option ℚ :=
  match w.findSource i with
  | some s => some s.balance
  | none =>
    match w.findStorage i with
    | some st => some st.dev.hasenergy
    | none => none

/-- `find_node(i).droopable()`: a `Load` returns its `droop_ratio`, an
`IdealStorage` returns `1.`, a `Source` returns `0.`. -/
def World.droopOf (w : World) (i : ℕ) : Option ℚ :=
  match w.findLoad i with
  | some l => some l.droop_ratio
  | none =>
    match w.findStorage i with
    | some _ => some 1
    | none =>
      match w.findSource i with
      | some _ => some 0
      | none => none

/-- `find_node(i).curtailment_ratio()`: a `Source` returns `1.0`, an
`IdealStorage` returns `0.`. -/
def World.curtailOf (w : World) (i : ℕ) : Option ℚ :=
  match w.findSource i with
  | some _ => some 1
  | none =>
    match w.findStorage i with
    | some _ => some 0
    | none => none

/-- `Gateway.needsenergy` (src/poplar/devices.py lines 475-480): sum of
`needsenergy()` over non-`Gateway` children exposing it. -/
def Gateway.needsenergy (w : World) (g : GatewayD) : ℚ :=
  (g.children.map (fun i =>
    if w.isGateway i then 0 else (w.needsOf i).getD 0)).sum

/-- `Gateway.hasenergy` (src/poplar/devices.py lines 482-487): sum of
`hasenergy()` over non-`Gateway` children exposing it. -/
def Gateway.hasenergy (w : World) (g : GatewayD) : ℚ :=
  (g.children.map (fun i =>
    if w.isGateway i then 0 else (w.hasOf i).getD 0)).sum

/-- `Gateway.droopable` (src/poplar/devices.py lines 489-504): the
`needsenergy`-weighted mean of the children's droop ratios, `0.` when the
aggregate need is zero. -/
def Gateway.droopable (w : World) (g : GatewayD) : ℚ :=
  let contrib := g.children.filterMap (fun i =>
    if w.isGateway i then none
    else
      match w.needsOf i, w.droopOf i with
      | some ce, some cd => some (ce, cd)
      | _, _ => none)
  let e := (contrib.map (fun p => p.1)).sum
  let d := (contrib.map (fun p => p.1 * p.2)).sum
  if e ≠ 0 then d / e else 0

/-- `Gateway.curtailment_ratio` (src/poplar/devices.py lines 506-521): the
`hasenergy`-weighted mean of the children's curtailment ratios, `0.` when
the aggregate supply is zero. -/
def Gateway.curtailment_ratio (w : World) (g : GatewayD) : ℚ :=
  let contrib := g.children.filterMap (fun i =>
    if w.isGateway i then none
    else
      match w.hasOf i, w.curtailOf i with
      | some ce, some cc => some (ce, cc)
      | _, _ => none)
  let e := (contrib.map (fun p => p.1)).sum
  let c := (contrib.map (fun p => p.1 * p.2)).sum
  if e ≠ 0 then c / e else 0

/-- `Load.bid` (src/poplar/loads.py lines 57-63): a bid for the cached
residual need at the load's configured value-per-kWh, or `None` when the
need is zero. -/
def LoadD.bid (l : LoadD) : Option Bid :=
  if l.balance ≠ 0 then some ⟨l.lid, l.balance, l.per_kwh, false⟩ else none

/-- `IdealStorage.bid` (src/poplar/storage.py lines 152-159): a
`storage = True` bid for `needsenergy()` at the near-zero `buy` price. -/
def StorageNode.bid (st : StorageNode) : Option Bid :=
  if st.dev.needsenergy ≠ 0 then
    some ⟨st.sid, st.dev.needsenergy, st.dev.buy, true⟩
  else none

/-- `Source.offer` (src/poplar/sources.py lines 11-16): offers `hasenergy()`
at `sell_kwh() = 0.` (curtailed PV has no opportunity cost), `None` when
nothing is available.  The destination id is ignored by sources. -/
def SourceD.offer (s : SourceD) : Option Offer :=
  if s.balance ≠ 0 then some ⟨s.sid, s.balance, 0, false⟩ else none

/-- The parent gateway of a node: the gateway whose `children` list contains
it.  On the composition tree this is the first `Gateway` on the shortest
path outward from the node (`src_gateway`). -/
def World.parentGateway (w : World) (i : ℕ) : Option ℕ :=
  (w.gateways.find? (fun g => g.children.contains i)).map (fun g => g.gid)

/-- `dest_gateway(obj_id)` (src/poplar/devices.py lines 152-165): the first
`Gateway` on the reversed shortest path to the node — the node itself when
it is a gateway, otherwise its parent gateway; `none` models the raised
`KeyError` when no gateway encloses the node. -/
def World.dest_gateway (w : World) (i : ℕ) : Option ℕ :=
  if w.isGateway i then some i else w.parentGateway i

/-- The chain of enclosing gateways of a node, nearest first, fuelled by the
number of gateways (the composition tree is acyclic). -/
def World.gatewayChain (w : World) : ℕ → ℕ → List ℕ
  | 0, _ => []
  | fuel+1, i =>
    match w.parentGateway i with
    | none => []
    | some p => p :: w.gatewayChain fuel p

/-- Prefix of a list up to and including the first occurrence of `x`. -/
def takeThrough (x : ℕ) : List ℕ → List ℕ
  | [] => []
  | y :: ys => if y = x then [y] else y :: takeThrough x ys

/-- The gateways lying on the tree path between two device nodes: each
node's enclosing chain up to and including the first common gateway. -/
def World.pathGateways (w : World) (a b : ℕ) : List ℕ :=
  let ca := w.gatewayChain w.gateways.length a
  let cb := w.gatewayChain w.gateways.length b
  match ca.find? (fun g => cb.contains g) with
  | some lca => takeThrough lca ca ++ takeThrough lca cb
  | none => ca ++ cb

/-- `IdealStorage.offer(dest_id)` (src/poplar/storage.py lines 122-150): no
offer when the destination is the device itself; when the storage's gateway
differs from the destination's gateway, every `Gateway` on the path between
them must have `export_power` enabled; otherwise offer `hasenergy()` at
`sell_kwh()` (= `chem.cost_kwh = 4.5/35` for the default FLA chemistry),
marked `storage = True`, or `None` when the state is zero.  (The `KeyError`
`find_node(dest_id)` would raise for an id outside the network cannot occur
in the engine: the destination is always a bidding node.) -/
def StorageNode.offer (w : World) (st : StorageNode) (dest_id : ℕ) :
    Option Offer :=
  if dest_id = st.sid then none
  else
    let src_gw := w.parentGateway st.sid
    let dst_gw := w.dest_gateway dest_id
    let export_ok :=
      if src_gw = dst_gw then true
      else
        (w.pathGateways st.sid dest_id).all (fun gid =>
          ((w.findGateway gid).map (fun g => g.export_power)).getD true)
    if export_ok then
      if st.dev.hasenergy ≠ 0 then
        some ⟨st.sid, st.dev.hasenergy, 9 / 70, true⟩
      else none
    else none

/-- The `offer(bid.obj_id)` results of every node exposing `offer`, in
network iteration order (sources, then storages; the Python graph's
iteration order is an implementation detail of the underlying dict and is
left open by the source). -/
def World.nodeOffers (w : World) (dest_id : ℕ) : List (Option Offer) :=
  w.sources.map SourceD.offer ++
    w.storages.map (fun st => StorageNode.offer w st dest_id)

/-- The `bid()` results of every node exposing `bid` (loads, then
storages), in network iteration order. -/
def World.nodeBids (w : World) : List (Option Bid) :=
  w.loads.map LoadD.bid ++ w.storages.map StorageNode.bid

/-- `rank_bids(nodes)` (src/poplar/econ.py lines 86-96): collect the
non-`None` bids and sort by `value`, highest first (Python's stable sort;
the order among equal values is unspecified by the source). -/
def rank_bids (bids? : List (Option Bid)) : List Bid :=
  (bids?.filterMap id).mergeSort (fun a b => decide (b.value ≤ a.value))

/-- `Load.power_io(energy)` (src/poplar/loads.py lines 74-85): add the
(signed) settled energy to `balance[key]` and return the new balance — the
return value is unused by the engine and not modelled. -/
def LoadD.power_io (l : LoadD) (energy : ℚ) : LoadD :=
  { l with balance := l.balance + energy,
           balance_sum := l.balance_sum + energy }

/-- `Source.power_io(energy)` (src/poplar/sources.py lines 53-59): raise
`Exception('PV over commited')` — modelled `none` — when `abs(energy)`
exceeds the balance for the current timestep, otherwise move the balance
and log the debit. -/
def SourceD.power_io (s : SourceD) (energy : ℚ) : Option SourceD :=
  if |energy| > s.balance then none
  else some { s with balance := s.balance + energy,
                     debits := s.debits + energy }

/-- `node.power_io(energy)` dispatched on the node's kind
(`IdealStorage.power_io` runs with the default `hours=1.`); `none` models a
raised exception or an unresolvable node (`find_node` `KeyError`). -/
def World.device_power_io (w : World) (i : ℕ) (energy : ℚ) : Option World :=
  match w.findLoad i with
  | some _ =>
    some { w with loads := w.loads.map (fun l =>
      if l.lid = i then LoadD.power_io l energy else l) }
  | none =>
    match w.findStorage i with
    | some _ =>
      some { w with storages := w.storages.map (fun st =>
        if st.sid = i then { st with dev := (st.dev.power_io energy 1).1 }
        else st) }
    | none =>
      match w.findSource i with
      | some s =>
        match SourceD.power_io s energy with
        | none => none
        | some _ =>
          some { w with sources := w.sources.map (fun s' =>
            if s'.sid = i then
              { s' with balance := s'.balance + energy,
                        debits := s'.debits + energy }
            else s') }
      | none => none

/-- Replace the gateway with id `i` by `f` applied to it. -/
def World.updGateway (w : World) (i : ℕ) (f : GatewayD → GatewayD) : World :=
  { w with gateways := w.gateways.map (fun g => if g.gid = i then f g else g) }

/-- `Gateway.transaction(offer, bid)` (src/poplar/devices.py lines 370-390),
run by the bid's own gateway `selfG`: deliver
`delta = min(abs(dest.needsenergy()), offer.wh)` to the destination, credit
it on `selfG`'s books, withdraw it from the offering source and debit the
source's gateway.  When `delta == 0.` the source logs
`logger.error('Transaction for 0, ...')` and carries on — the returned
boolean records whether that error was logged.  `none` models an exception
escaping the transaction (source over-commit, unresolvable node). -/
def transaction (w : World) (selfG : ℕ) (offer : Offer) (bid : Bid) :
    Option (World × Bool) :=
  match w.needsOf bid.obj_id with
  | none => none
  | some ne =>
    let delta := min |ne| offer.wh
    let logged := decide (delta = 0)
    match w.device_power_io bid.obj_id delta with
    | none => none
    | some w =>
      let w := w.updGateway selfG (fun g =>
        { g with balance := g.balance + delta, credits := g.credits + delta })
      match w.device_power_io offer.obj_id (-delta) with
      | none => none
      | some w =>
        match w.dest_gateway offer.obj_id with
        | none => none
        | some sd =>
          some (w.updGateway sd (fun g =>
            { g with debits := g.debits - delta, balance := g.balance - delta }),
            logged)

/-- The `while offer and node.needsenergy():` settlement loop of
`Gateway.get_energy` (src/poplar/devices.py lines 399-404), fuelled: the
Python loop runs until no eligible offer remains or the bid's need reaches
zero; the fuel only bounds the number of iterations and every theorem below
holds for every fuel. -/
def settleLoop (selfG : ℕ) (bid : Bid) : ℕ → World → Option World
  | 0, w => some w
  | fuel + 1, w =>
    match low_offer (w.nodeOffers bid.obj_id) bid with
    | none => some w
    | some offer =>
      match w.needsOf bid.obj_id with
      | none => none
      | some ne =>
        if ne ≠ 0 then
          match transaction w selfG offer bid with
          | none => none
          | some (w', _) => settleLoop selfG bid fuel w'
        else some w

/-- `Gateway.get_energy(bid)` (src/poplar/devices.py lines 392-418): run the
settlement loop; if the bid still has unmet need and is not a storage bid,
set this step's `outage` entry to 1, add the signed residual `needsenergy()`
to the cumulative `shortfall`, and add
`timestep - (initial_demand - demand[key]) / initial_demand * timestep` to
`lolh`, where `initial_demand` is this gateway's `demand[key]` captured on
entry (`none` models the `ZeroDivisionError` Python raises when it is
zero).  Returns `false` exactly when the shortage branch ran. -/
def get_energy (w : World) (selfG : ℕ) (bid : Bid) (fuel : ℕ) :
    Option (World × Bool) :=
  match w.needsOf bid.obj_id with
  | none => none
  | some _ =>
    match w.findGateway selfG with
    | none => none
    | some g0 =>
      let initial_demand := g0.demand
      match settleLoop selfG bid fuel w with
      | none => none
      | some w =>
        match w.needsOf bid.obj_id with
        | none => none
        | some ne =>
          if ne ≠ 0 ∧ bid.storage = false then
            if initial_demand = 0 then none
            else
              some (w.updGateway selfG (fun g =>
                { g with outage := 1,
                         shortfall := g.shortfall + ne,
                         lolh := g.lolh + (g.timestep -
                           (initial_demand - g.demand) / initial_demand *
                             g.timestep) }),
                false)
          else
            some (w, true)

/-- The init / demand aggregation / supply aggregation / balance phases of
`Gateway.calc` (src/poplar/devices.py lines 438-459): every connected
domain records the new timestep and zeroed books, then its aggregate
non-droopable demand, its curtailment-weighted supply, and
`balance[key] = source[key] + demand[key]`.  (`outage[key]` is not
initialized by `calc`; it is only written by `get_energy`.) -/
def calcPhases (w : World) (hours : ℚ) : World :=
  let w1 := { w with gateways := w.gateways.map (fun g : GatewayD =>
    { g with timestep := hours, credits := 0, demand := 0, debits := 0,
             balance := 0 }) }
  let w2 := { w1 with gateways := w1.gateways.map (fun g : GatewayD =>
    { g with demand := Gateway.needsenergy w1 g * (1 - Gateway.droopable w1 g) }) }
  let w3 := { w2 with gateways := w2.gateways.map (fun g : GatewayD =>
    { g with source := Gateway.hasenergy w2 g * Gateway.curtailment_ratio w2 g }) }
  { w3 with gateways := w3.gateways.map (fun g : GatewayD =>
    { g with balance := g.source + g.demand }) }

/-- The `for bid in bids:` loop of `Gateway.calc` (src/poplar/devices.py
lines 467-471): locate each bid's destination gateway
(`self.dest_gateway(bid.obj_id)`, a `KeyError` — `none` — when absent) and
delegate the settlement to it. -/
def settleBids (fuel : ℕ) : World → List Bid → Option World
  | w, [] => some w
  | w, bid :: rest =>
    match w.dest_gateway bid.obj_id with
    | none => none
    | some dest =>
      match get_energy w dest bid fuel with
      | none => none
      | some (w', _) => settleBids fuel w' rest

/-- `Gateway.calc(hours=1.0)` (src/poplar/devices.py lines 420-473; `calc`
is a Lean keyword, hence the name `runCalc`): run the four logging phases,
rank all bids network-wide and hand each bid, highest value first, to its
destination gateway's `get_energy`.  (The final `self.reconcile()` call is
commented out in the source.) -/
def runCalc (w : World) (hours : ℚ) (fuel : ℕ) : Option World :=
  let w := calcPhases w hours
  settleBids fuel w (rank_bids w.nodeBids)

/-- `Load.enabled` (src/poplar/loads.py lines 91-95):
`abs(total() * env.total_time / interval - sum(balance.values()))`. -/
def LoadD.enabled (w : World) (l : LoadD) : ℚ :=
  |l.total_annual * w.total_time / l.interval - l.balance_sum|

/-- `Gateway.eta` (src/poplar/devices.py lines 266-284): sum `enabled()`
over the network nodes exposing it (the loads) and `total_gen()` over the
nodes exposing it (the sources), then return `net_l / g` with no guard on
the denominator; `none` models the `ZeroDivisionError` Python raises when
total generation is zero. -/
def Gateway.eta (w : World) : Option ℚ :=
  let net_l := (w.loads.map (fun l => LoadD.enabled w l)).sum
  let g := (w.sources.map (fun s => s.generation)).sum
  if g = 0 then none else some (net_l / g)

/-- `Gateway.STC` (src/poplar/devices.py lines 348-355): nameplate sum over
children carrying a truthy `gen` flag. -/
def Gateway.STC (w : World) (g : GatewayD) : ℚ :=
  (g.children.map (fun i =>
    match w.findSource i with
    | some s => if s.gen then s.nameplate else 0
    | none => 0)).sum

/-- `Gateway.capacity_factor` (src/poplar/devices.py lines 290-301):
`sum(net_l) / (STC * 24 * 365)` guarded by `if self.STC():`, returning `0.`
when the nameplate is zero — this method never divides by zero. -/
def Gateway.capacity_factor (w : World) (g : GatewayD) : Option ℚ :=
  if Gateway.STC w g ≠ 0 then
    some (g.net_l.sum / (Gateway.STC w g * 24 * 365))
  else some 0

/-! ## Concrete scenario worlds

Small networks used to evaluate the engine on concrete inputs.  A fresh
`Gateway` has zeroed books (`Gateway.__init__`), an exporting policy and
`domain_r = 1`; each load/source has already cached its demand/output for
the current step (the first `needsenergy`/`energy` call of the step). -/

/-- A freshly constructed gateway with the given id and children. -/
def freshGateway (gid : ℕ) (children : List ℕ) : GatewayD :=
  { gid := gid, children := children, credits := 0, debits := 0, balance := 0,
    demand := 0, source := 0, outage := 0, net_l := [], shortfall := 0,
    lolh := 0, timestep := 1, export_power := true, domain_r := 1 }

/-- A load whose cached demand for the current step is `bal` (negative by
convention), valued at 0.07 USD/kWh with no droop. -/
def exampleLoad (lid : ℕ) (bal : ℚ) : LoadD :=
  { lid := lid, balance := bal, balance_sum := bal, dmnd := bal,
    per_kwh := 7 / 100, droop_ratio := 0, total_annual := bal * 365 * 24,
    interval := 365 * 24 }

/-- A source whose cached output for the current step is `bal` Wh. -/
def exampleSource (sid : ℕ) (bal : ℚ) : SourceD :=
  { sid := sid, balance := bal, debits := 0, generation := bal, gen := true,
    nameplate := 15 }

/-- One domain, one load wanting 10 Wh, one source holding 5 Wh: the load
can only be partially served and ends the step 5 Wh short. -/
def partialServeWorld : World :=
  { loads := [exampleLoad 1 (-10)], sources := [exampleSource 2 5],
    storages := [], gateways := [freshGateway 10 [1, 2]], total_time := 1 }

/-- A root domain with two sub-domains: gateway 101 owns a load wanting
10 Wh, gateway 102 owns a source holding 15 Wh, so settlement moves energy
across domain boundaries. -/
def crossDomainWorld : World :=
  { loads := [exampleLoad 1 (-10)], sources := [exampleSource 2 15],
    storages := [],
    gateways := [freshGateway 100 [101, 102], freshGateway 101 [1],
                 freshGateway 102 [2]],
    total_time := 1 }

/-- One domain containing a single load and no generation at all. -/
def zeroGenWorld : World :=
  { loads := [exampleLoad 1 (-10)], sources := [], storages := [],
    gateways := [freshGateway 20 [1]], total_time := 1 }

/-- One domain with a load that needs nothing (`balance[key] = 0`) and a
source holding 5 Wh — matching these produces a zero-energy transaction. -/
def zeroDeltaWorld : World :=
  { loads := [exampleLoad 1 0], sources := [exampleSource 2 5],
    storages := [], gateways := [freshGateway 30 [1, 2]], total_time := 1 }

/-! ## Evaluated runs of the engine on the scenario worlds

The intermediate worlds traversed by `runCalc` on the two scenarios, written
out explicitly so the run can be established stage by stage. -/

/-- The single bid raised in both scenarios: load 1 wants 10 Wh at its
0.07 value. -/
def psBid : Bid := ⟨1, -10, 7 / 100, false⟩

/-- The 5 Wh offer of the partially-serving source. -/
def psOffer : Offer := ⟨2, 5, 0, false⟩

/-- `partialServeWorld`'s gateway after the four logging phases. -/
def psGw1 : GatewayD :=
  { freshGateway 10 [1, 2] with demand := -10, source := 5, balance := -5 }

/-- `partialServeWorld` after the four logging phases. -/
def psW1 : World :=
  { loads := [exampleLoad 1 (-10)], sources := [exampleSource 2 5],
    storages := [], gateways := [psGw1], total_time := 1 }

/-- Load 1 after receiving the 5 Wh the source could deliver. -/
def psLoad2 : LoadD :=
  { exampleLoad 1 (-10) with balance := -5, balance_sum := -5 }

/-- The source after delivering its 5 Wh. -/
def psSource2 : SourceD :=
  { exampleSource 2 5 with balance := 0, debits := -5 }

/-- The gateway after the 5 Wh transaction is booked on both sides. -/
def psGw2 : GatewayD := { psGw1 with credits := 5, debits := -5, balance := -5 }

/-- `partialServeWorld` after the settlement loop. -/
def psW2 : World :=
  { loads := [psLoad2], sources := [psSource2], storages := [],
    gateways := [psGw2], total_time := 1 }

/-- `partialServeWorld` at the end of the step: the shortage branch logged
the outage, added the signed residual −5 to `shortfall` and a full
timestep to `lolh`. -/
def psWf : World :=
  { psW2 with
    gateways := [{ psGw2 with outage := 1, shortfall := -5, lolh := 1 }] }

/-- The 15 Wh offer of the cross-domain source. -/
def csOffer : Offer := ⟨2, 15, 0, false⟩

/-- The root gateway of `crossDomainWorld`, unchanged by the phases. -/
def csGw100 : GatewayD := freshGateway 100 [101, 102]

/-- The load-side gateway after the phases. -/
def csGw101a : GatewayD :=
  { freshGateway 101 [1] with demand := -10, balance := -10 }

/-- The source-side gateway after the phases. -/
def csGw102a : GatewayD :=
  { freshGateway 102 [2] with source := 15, balance := 15 }

/-- `crossDomainWorld` after the four logging phases. -/
def csW1 : World :=
  { loads := [exampleLoad 1 (-10)], sources := [exampleSource 2 15],
    storages := [], gateways := [csGw100, csGw101a, csGw102a],
    total_time := 1 }

/-- The load after its 10 Wh were fully delivered. -/
def csLoad2 : LoadD :=
  { exampleLoad 1 (-10) with balance := 0, balance_sum := 0 }

/-- The cross-domain source after delivering 10 of its 15 Wh. -/
def csSource2 : SourceD :=
  { exampleSource 2 15 with balance := 5, debits := -10 }

/-- The load-side gateway after the cross-domain transaction: its balance
rose by the imported 10 Wh while `source`/`demand` stayed put. -/
def csGw101b : GatewayD := { csGw101a with balance := 0, credits := 10 }

/-- The source-side gateway after the cross-domain transaction. -/
def csGw102b : GatewayD := { csGw102a with balance := 5, debits := -10 }

/-- `crossDomainWorld` at the end of the step. -/
def csW2 : World :=
  { loads := [csLoad2], sources := [csSource2], storages := [],
    gateways := [csGw100, csGw101b, csGw102b], total_time := 1 }

/-! ## Storage lemmas and theorems (claims C1, C7, C10) -/

/-- Value returned by `power_io`: the clamped delta minus the request. -/
lemma power_io_snd (s : IdealStorage) (p h : ℚ) :
    (s.power_io p h).2 =
      (if 0 < p * h then min (p * h) (s.nominal_capacity - s.state)
       else if p * h < 0 then -(min (-(p * h)) s.state)
       else 0) - p * h := by
  unfold IdealStorage.power_io
  dsimp only
  split_ifs <;> rfl

/-- State after `power_io`: charging adds the clamped delta, discharging
subtracts the clamped magnitude. -/
lemma power_io_state (s : IdealStorage) (p h : ℚ) :
    (s.power_io p h).1.state =
      (if 0 < p * h then s.state + min (p * h) (s.nominal_capacity - s.state)
       else if p * h < 0 then s.state - min (-(p * h)) s.state
       else s.state) := by
  unfold IdealStorage.power_io
  dsimp only
  split_ifs <;> first | rfl | (simp only []; ring)

/-- `power_io` never changes the nominal capacity. -/
lemma power_io_capacity (s : IdealStorage) (p h : ℚ) :
    (s.power_io p h).1.nominal_capacity = s.nominal_capacity := by
  unfold IdealStorage.power_io
  dsimp only
  split_ifs <;> rfl

/-- C1 (amended): `power_io` returns the **delivered minus requested**
energy, i.e. the negated unmet residual: it is 0 when the transfer is fully
satisfied, strictly *negative* when a charging request overflows the
remaining capacity, and strictly *positive* when a discharge request
exceeds the stored energy (the opposite signs of the claim). -/
theorem power_io_returns_delivered_minus_requested (s : IdealStorage)
    (p h : ℚ) (h0 : 0 ≤ s.state) (h1 : s.state ≤ s.nominal_capacity) :
    ((-s.state ≤ p * h ∧ p * h ≤ s.nominal_capacity - s.state) →
      (s.power_io p h).2 = 0) ∧
    (s.nominal_capacity - s.state < p * h →
      (s.power_io p h).2 = (s.nominal_capacity - s.state) - p * h ∧
        (s.power_io p h).2 < 0) ∧
    (p * h < -s.state →
      (s.power_io p h).2 = -s.state - p * h ∧ 0 < (s.power_io p h).2) := by
  refine ⟨?_, ?_, ?_⟩
  · rintro ⟨ha, hb⟩
    rw [power_io_snd]
    rcases lt_trichotomy (p * h) 0 with hlt | heq | hgt
    · rw [if_neg (by linarith), if_pos hlt, min_eq_left (by linarith)]
      try ring
    · rw [heq]
      norm_num
    · rw [if_pos hgt, min_eq_left hb]
      try ring
  · intro hov
    have hgt : 0 < p * h := by linarith
    have hm : min (p * h) (s.nominal_capacity - s.state) =
        s.nominal_capacity - s.state := min_eq_right hov.le
    constructor
    · rw [power_io_snd, if_pos hgt, hm]
    · rw [power_io_snd, if_pos hgt, hm]
      linarith
  · intro hsh
    have hlt : p * h < 0 := by linarith
    have hm : min (-(p * h)) s.state = s.state := min_eq_right (by linarith)
    constructor
    · rw [power_io_snd, if_neg (by linarith), if_pos hlt, hm]
      try ring
    · rw [power_io_snd, if_neg (by linarith), if_pos hlt, hm]
      linarith

/-- Witness for C1 (amended): a full 100 Wh storage asked to charge 50 Wh
more returns `(100 - 100) - 50 = -50`, the delivered-minus-requested
residual. -/
theorem power_io_returns_delivered_minus_requested_witness :
    (IdealStorage.power_io (IdealStorage.init 100) 50 1).2 =
      ((IdealStorage.init 100).nominal_capacity -
        (IdealStorage.init 100).state) - 50 * 1 :=
  ((power_io_returns_delivered_minus_requested (IdealStorage.init 100) 50 1
    (by norm_num [IdealStorage.init]) (by norm_num [IdealStorage.init])).2.1
    (by norm_num [IdealStorage.init])).1

/-- C1 (counterexample): run the claim's round-trip on an emptied
`IdealStorage(100)`.  Charging 100 Wh leaves `state == 100` and returns 0 as
claimed, but the subsequent `power_io(-150, hours=1)` returns **+50**, not
the claimed `-50` (and a charging overflow returns a negative number, not a
positive one: `power_io(10)` on a full device returns `-10`, the value the
doctest in the source records). -/
theorem power_io_round_trip_counterexample :
    (IdealStorage.power_io (IdealStorage.init 100) (-100) 1).1.state = 0 ∧
    (IdealStorage.power_io
      (IdealStorage.power_io (IdealStorage.init 100) (-100) 1).1 100 1).2 = 0 ∧
    (IdealStorage.power_io
      (IdealStorage.power_io (IdealStorage.init 100) (-100) 1).1
        100 1).1.state = 100 ∧
    (IdealStorage.power_io
      (IdealStorage.power_io
        (IdealStorage.power_io (IdealStorage.init 100) (-100) 1).1 100 1).1
      (-150) 1).2 = 50 ∧
    (IdealStorage.power_io
      (IdealStorage.power_io
        (IdealStorage.power_io (IdealStorage.init 100) (-100) 1).1 100 1).1
      (-150) 1).1.state = 0 ∧
    ((50 : ℚ) ≠ -50) ∧
    (IdealStorage.power_io (IdealStorage.init 100) 10 1).2 = -10 := by
  norm_num [IdealStorage.power_io, IdealStorage.init]

/-- Bounds are preserved by one `power_io` call. -/
lemma power_io_state_bounds (s : IdealStorage) (p h : ℚ)
    (h0 : 0 ≤ s.state) (h1 : s.state ≤ s.nominal_capacity) :
    0 ≤ (s.power_io p h).1.state ∧
      (s.power_io p h).1.state ≤ s.nominal_capacity := by
  constructor <;> rw [power_io_state] <;> split_ifs with hc hd
  · have hm : (0 : ℚ) ≤ min (p * h) (s.nominal_capacity - s.state) :=
      le_min hc.le (by linarith)
    linarith
  · have hm : min (-(p * h)) s.state ≤ s.state := min_le_right _ _
    linarith
  · exact h0
  · have hm : min (p * h) (s.nominal_capacity - s.state) ≤
        s.nominal_capacity - s.state := min_le_right _ _
    linarith
  · have hm : (0 : ℚ) ≤ min (-(p * h)) s.state := le_min (by linarith) h0
    linarith
  · exact h1

/-- Bounds are preserved by any sequence of `power_io` calls, and the
capacity never changes. -/
lemma runCalls_state_bounds (calls : List (ℚ × ℚ)) :
    ∀ s : IdealStorage, 0 ≤ s.state → s.state ≤ s.nominal_capacity →
      0 ≤ (s.runCalls calls).state ∧
      (s.runCalls calls).state ≤ (s.runCalls calls).nominal_capacity ∧
      (s.runCalls calls).nominal_capacity = s.nominal_capacity := by
  induction calls with
  | nil => exact fun s h0 h1 => ⟨h0, h1, rfl⟩
  | cons c rest ih =>
    intro s h0 h1
    simp only [IdealStorage.runCalls]
    have hb := power_io_state_bounds s c.1 c.2 h0 h1
    have hcap := power_io_capacity s c.1 c.2
    have h2 : (s.power_io c.1 c.2).1.state ≤
        (s.power_io c.1 c.2).1.nominal_capacity := by
      rw [hcap]; exact hb.2
    obtain ⟨a, b, e⟩ := ih (s.power_io c.1 c.2).1 hb.1 h2
    exact ⟨a, b, by rw [e, hcap]⟩

/-- C7: for every `IdealStorage` created with positive capacity and every
finite sequence of `power_io(power, hours)` calls with positive hours, the
invariant `0 ≤ state ≤ nominal_capacity` holds after every call (every
prefix of a call sequence is itself a call sequence). -/
theorem storage_state_stays_in_bounds (c : ℚ) (hc : 0 < c)
    (calls : List (ℚ × ℚ)) (hh : ∀ x ∈ calls, 0 < x.2) :
    0 ≤ ((IdealStorage.init c).runCalls calls).state ∧
      ((IdealStorage.init c).runCalls calls).state ≤ c := by
  obtain ⟨a, b, e⟩ := runCalls_state_bounds calls (IdealStorage.init c)
    (le_of_lt hc) (le_refl c)
  refine ⟨a, ?_⟩
  rw [e] at b
  exact b

/-- Witness for C7: a 100 Wh device over-charged then over-discharged stays
within `[0, 100]`. -/
theorem storage_state_stays_in_bounds_witness :
    0 ≤ ((IdealStorage.init 100).runCalls [(50, 1), (-200, 1)]).state ∧
      ((IdealStorage.init 100).runCalls [(50, 1), (-200, 1)]).state ≤ 100 :=
  storage_state_stays_in_bounds 100 (by norm_num) [(50, 1), (-200, 1)]
    (by intro x hx; fin_cases hx <;> norm_num)

/-- C10: `IdealStorage(c)` starts full — `state == c`, `soc() == 1.0` — with
`throughput`, `surplus`, `shortfall`, `drained_hours`, `full_hours` and
`loss_occurence` all zero.  (`IdealStorage.init` takes the capacity as its
only argument, mirroring the constructor's lack of an initial-state-of-
charge parameter.) -/
theorem init_starts_full (c : ℚ) (hc : 0 < c) :
    (IdealStorage.init c).state = c ∧
    IdealStorage.soc (IdealStorage.init c) = 1 ∧
    (IdealStorage.init c).throughput = 0 ∧
    (IdealStorage.init c).surplus = 0 ∧
    (IdealStorage.init c).shortfall = 0 ∧
    (IdealStorage.init c).drained_hours = 0 ∧
    (IdealStorage.init c).full_hours = 0 ∧
    (IdealStorage.init c).loss_occurence = 0 := by
  refine ⟨rfl, ?_, rfl, rfl, rfl, rfl, rfl, rfl⟩
  show c / c = 1
  exact div_self hc.ne'

/-- Witness for C10 at capacity 100. -/
theorem init_starts_full_witness :
    (IdealStorage.init 100).state = 100 ∧
    IdealStorage.soc (IdealStorage.init 100) = 1 ∧
    (IdealStorage.init 100).throughput = 0 ∧
    (IdealStorage.init 100).surplus = 0 ∧
    (IdealStorage.init 100).shortfall = 0 ∧
    (IdealStorage.init 100).drained_hours = 0 ∧
    (IdealStorage.init 100).full_hours = 0 ∧
    (IdealStorage.init 100).loss_occurence = 0 :=
  init_starts_full 100 (by norm_num)

/-! ## Auction matching theorems (claims C5, C9) -/

lemma lowOffer_foldl_thresh (bid : Bid) :
    ∀ (l : List (Option Offer)) (acc : Option Offer × ℚ),
      (l.foldl (lowOfferStep bid) acc).2 ≤ acc.2 := by
  intro l
  induction l with
  | nil => intro acc; exact le_refl _
  | cons o? rest ih =>
    intro acc
    simp only [List.foldl_cons]
    refine le_trans (ih (lowOfferStep bid acc o?)) ?_
    unfold lowOfferStep
    match o? with
    | none => exact le_refl _
    | some o =>
      dsimp only
      split_ifs with h
      · exact h.1.le
      · exact le_refl _

lemma lowOffer_foldl_min (bid : Bid) :
    ∀ (l : List (Option Offer)) (acc : Option Offer × ℚ) (o' : Offer),
      some o' ∈ l → eligibleFor bid o' →
      (l.foldl (lowOfferStep bid) acc).2 ≤ o'.value := by
  intro l
  induction l with
  | nil => intro acc o' hmem; exact absurd hmem (List.not_mem_nil _)
  | cons o? rest ih =>
    intro acc o' hmem helig
    simp only [List.foldl_cons]
    rcases List.mem_cons.mp hmem with heq | htail
    · subst heq
      by_cases hlt : o'.value < acc.2 ∧ eligibleFor bid o'
      · have : lowOfferStep bid acc (some o') = (some o', o'.value) := by
          unfold lowOfferStep; dsimp only; rw [if_pos hlt]
        rw [this]
        exact lowOffer_foldl_thresh bid rest _
      · have hstep : lowOfferStep bid acc (some o') = acc := by
          unfold lowOfferStep; dsimp only; rw [if_neg hlt]
        rw [hstep]
        have hge : acc.2 ≤ o'.value := by
          by_contra hcon
          exact hlt ⟨lt_of_not_le hcon, helig⟩
        exact le_trans (lowOffer_foldl_thresh bid rest acc) hge
    · exact ih _ o' htail helig

lemma lowOffer_foldl_isSome (bid : Bid) :
    ∀ (l : List (Option Offer)) (acc : Option Offer × ℚ),
      acc.1.isSome → (l.foldl (lowOfferStep bid) acc).1.isSome := by
  intro l
  induction l with
  | nil => intro acc h; exact h
  | cons o? rest ih =>
    intro acc h
    simp only [List.foldl_cons]
    refine ih _ ?_
    unfold lowOfferStep
    match o? with
    | none => exact h
    | some o =>
      dsimp only
      split_ifs with hc
      · rfl
      · exact h

lemma lowOffer_foldl_inv (bid : Bid) :
    ∀ (l : List (Option Offer)) (acc : Option Offer × ℚ),
      (acc.1 = none → acc.2 = 100) →
      (∀ o, acc.1 = some o → o.value = acc.2 ∧ eligibleFor bid o ∧ acc.2 < 100) →
      ((l.foldl (lowOfferStep bid) acc).1 = none →
          (l.foldl (lowOfferStep bid) acc).2 = 100) ∧
        (∀ o, (l.foldl (lowOfferStep bid) acc).1 = some o →
          o.value = (l.foldl (lowOfferStep bid) acc).2 ∧ eligibleFor bid o ∧
          (l.foldl (lowOfferStep bid) acc).2 < 100 ∧
          (some o ∈ l ∨ acc.1 = some o)) := by
  intro l
  induction l with
  | nil =>
    intro acc h1 h2
    exact ⟨h1, fun o ho => by
      obtain ⟨a, b, c⟩ := h2 o ho
      exact ⟨a, b, c, Or.inr ho⟩⟩
  | cons o? rest ih =>
    intro acc h1 h2
    simp only [List.foldl_cons]
    have hle100 : acc.2 ≤ 100 := by
      cases hacc : acc.1 with
      | none => exact (h1 hacc).le
      | some o'' => exact (h2 o'' hacc).2.2.le
    match ho? : o? with
    | none =>
      have hstep : lowOfferStep bid acc none = acc := rfl
      rw [hstep]
      obtain ⟨a, b⟩ := ih acc h1 h2
      refine ⟨a, fun o ho => ?_⟩
      obtain ⟨x, y, z, m⟩ := b o ho
      exact ⟨x, y, z, m.imp (fun h => List.mem_cons_of_mem _ h) id⟩
    | some oo =>
      by_cases hc : oo.value < acc.2 ∧ eligibleFor bid oo
      · have hstep : lowOfferStep bid acc (some oo) = (some oo, oo.value) := by
          unfold lowOfferStep; dsimp only; rw [if_pos hc]
        rw [hstep]
        have hinv1 : ((some oo : Option Offer), oo.value).1 = none →
            ((some oo : Option Offer), oo.value).2 = 100 := by
          intro h; exact absurd h (by simp)
        have hinv2 : ∀ o, ((some oo : Option Offer), oo.value).1 = some o →
            o.value = ((some oo : Option Offer), oo.value).2 ∧
            eligibleFor bid o ∧ ((some oo : Option Offer), oo.value).2 < 100 := by
          intro o ho
          have : o = oo := by simpa using ho.symm
          subst this
          exact ⟨rfl, hc.2, lt_of_lt_of_le hc.1 hle100⟩
        obtain ⟨a, b⟩ := ih _ hinv1 hinv2
        refine ⟨a, fun o ho => ?_⟩
        obtain ⟨x, y, z, m⟩ := b o ho
        refine ⟨x, y, z, ?_⟩
        rcases m with m | m
        · exact Or.inl (List.mem_cons_of_mem _ m)
        · have : o = oo := by simpa using m.symm
          subst this
          exact Or.inl (List.mem_cons_self _ _)
      · have hstep : lowOfferStep bid acc (some oo) = acc := by
          unfold lowOfferStep; dsimp only; rw [if_neg hc]
        rw [hstep]
        obtain ⟨a, b⟩ := ih acc h1 h2
        refine ⟨a, fun o ho => ?_⟩
        obtain ⟨x, y, z, m⟩ := b o ho
        exact ⟨x, y, z, m.imp (fun h => List.mem_cons_of_mem _ h) id⟩

lemma lowOffer_none_of_all_ge (bid : Bid) :
    ∀ (l : List (Option Offer)) (acc : Option Offer × ℚ),
      acc.1 = none → acc.2 = 100 →
      (∀ o, some o ∈ l → eligibleFor bid o → 100 ≤ o.value) →
      (l.foldl (lowOfferStep bid) acc).1 = none := by
  intro l
  induction l with
  | nil => intro acc h1 _ _; exact h1
  | cons o? rest ih =>
    intro acc h1 h2 hall
    simp only [List.foldl_cons]
    have hstep : lowOfferStep bid acc o? = acc := by
      match o? with
      | none => rfl
      | some oo =>
        unfold lowOfferStep
        dsimp only
        rw [if_neg]
        rintro ⟨hlt, helig⟩
        have := hall oo (List.mem_cons_self _ _) helig
        rw [h2] at hlt
        linarith
    rw [hstep]
    exact ih acc h1 h2 (fun o ho he => hall o (List.mem_cons_of_mem _ ho) he)


lemma lowOffer_all_ge_of_none (bid : Bid) :
    ∀ (l : List (Option Offer)) (acc : Option Offer × ℚ),
      acc.1 = none → acc.2 = 100 →
      (l.foldl (lowOfferStep bid) acc).1 = none →
      ∀ o, some o ∈ l → eligibleFor bid o → 100 ≤ o.value := by
  intro l
  induction l with
  | nil => intro acc _ _ _ o hmem; exact absurd hmem (List.not_mem_nil _)
  | cons o? rest ih =>
    intro acc h1 h2 hres o hmem helig
    simp only [List.foldl_cons] at hres
    by_cases hupd : ∃ oo, o? = some oo ∧ (oo.value < acc.2 ∧ eligibleFor bid oo)
    · obtain ⟨oo, rfl, hc⟩ := hupd
      have hstep : lowOfferStep bid acc (some oo) = (some oo, oo.value) := by
        unfold lowOfferStep; dsimp only; rw [if_pos hc]
      rw [hstep] at hres
      have := lowOffer_foldl_isSome bid rest (some oo, oo.value) rfl
      rw [hres] at this
      exact absurd this (by simp)
    · have hstep : lowOfferStep bid acc o? = acc := by
        match o? with
        | none => rfl
        | some oo =>
          unfold lowOfferStep
          dsimp only
          rw [if_neg]
          intro hc
          exact hupd ⟨oo, rfl, hc⟩
      rw [hstep] at hres
      rcases List.mem_cons.mp hmem with heq | htail
      · subst heq
        by_contra hcon
        exact hupd ⟨o, rfl, ⟨by rw [h2]; exact lt_of_not_le hcon, helig⟩⟩
      · exact ih acc h1 h2 hres o htail helig

/-- C9: `low_offer` starts its running `offer_value` at 100, so it never
returns an offer priced at 100 or above, and when every eligible offer in
the network is priced at 100 or above it returns `None` regardless of the
quantities available. -/
theorem low_offer_never_at_or_above_100 :
    (∀ (offers : List (Option Offer)) (bid : Bid) (o : Offer),
      low_offer offers bid = some o → o.value < 100) ∧
    (∀ (offers : List (Option Offer)) (bid : Bid),
      (∀ o, some o ∈ offers → eligibleFor bid o → 100 ≤ o.value) →
      low_offer offers bid = none) := by
  constructor
  · intro offers bid o hres
    obtain ⟨-, hsome⟩ := lowOffer_foldl_inv bid offers (none, 100)
      (fun _ => rfl) (fun o' ho' => by simp at ho')
    obtain ⟨hval, -, hlt, -⟩ := hsome o hres
    rw [hval]; exact hlt
  · intro offers bid hall
    exact lowOffer_none_of_all_ge bid offers (none, 100) rfl rfl hall

/-- Witness for C9: a single eligible offer priced at 150 is rejected. -/
theorem low_offer_never_at_or_above_100_witness :
    low_offer [some ⟨1, 5, 150, false⟩] ⟨2, -10, 1, false⟩ = none :=
  low_offer_never_at_or_above_100.2 [some ⟨1, 5, 150, false⟩] ⟨2, -10, 1, false⟩
    (by
      intro o ho _
      simp only [List.mem_singleton, Option.some.injEq] at ho
      subst ho
      norm_num)

/-- C5 (amended): `low_offer(network, bid)` returns an offer of minimal
`value` among the offers produced by the network's nodes that are eligible
(obj_id differing from the bid's, not a storage-to-storage match) **and
priced strictly below the 100 starting threshold**, and returns `None`
exactly when no such offer exists; a storage device never offers to
itself (`offer(dest_id)` returns `None` when `dest_id == id(self)`), so its
bid is never matched against its own offer. -/
theorem low_offer_minimal_eligible_below_100 :
    (∀ (offers : List (Option Offer)) (bid : Bid) (o : Offer),
      low_offer offers bid = some o →
        some o ∈ offers ∧ eligibleFor bid o ∧ o.value < 100 ∧
        ∀ o', some o' ∈ offers → eligibleFor bid o' → o.value ≤ o'.value) ∧
    (∀ (offers : List (Option Offer)) (bid : Bid),
      low_offer offers bid = none ↔
        ∀ o, some o ∈ offers → eligibleFor bid o → 100 ≤ o.value) ∧
    (∀ (w : World) (st : StorageNode), StorageNode.offer w st st.sid = none) := by
  refine ⟨?_, ?_, ?_⟩
  · intro offers bid o hres
    obtain ⟨-, hsome⟩ := lowOffer_foldl_inv bid offers (none, 100)
      (fun _ => rfl) (fun o' ho' => by simp at ho')
    obtain ⟨hval, helig, hlt, hmem⟩ := hsome o hres
    refine ⟨?_, helig, by rw [hval]; exact hlt, ?_⟩
    · rcases hmem with h | h
      · exact h
      · simp at h
    · intro o' hmem' helig'
      rw [hval]
      exact lowOffer_foldl_min bid offers (none, 100) o' hmem' helig'
  · intro offers bid
    constructor
    · exact fun hres => lowOffer_all_ge_of_none bid offers (none, 100) rfl rfl hres
    · exact fun hall => lowOffer_none_of_all_ge bid offers (none, 100) rfl rfl hall
  · intro w st
    unfold StorageNode.offer
    rw [if_pos rfl]

/-- Witness for C5 (amended): a lone eligible offer priced at 50 is
selected and satisfies the stated properties. -/
theorem low_offer_minimal_eligible_below_100_witness :
    some (⟨1, 5, 50, false⟩ : Offer) ∈ [some (⟨1, 5, 50, false⟩ : Offer)] ∧
    eligibleFor ⟨2, -10, 1, false⟩ ⟨1, 5, 50, false⟩ ∧
    ((⟨1, 5, 50, false⟩ : Offer)).value < 100 := by
  have h := low_offer_minimal_eligible_below_100.1 [some ⟨1, 5, 50, false⟩]
    ⟨2, -10, 1, false⟩ ⟨1, 5, 50, false⟩
    (by norm_num [low_offer, lowOfferStep, eligibleFor])
  exact ⟨h.1, h.2.1, h.2.2.1⟩

/-- C5 (counterexample): an eligible offer priced at 200 exists, yet
`low_offer` returns `None` — the claim's "returns None exactly when no
such eligible offer exists" fails on offers at or above 100. -/
theorem low_offer_counterexample :
    eligibleFor ⟨4, -5, 2, false⟩ ⟨3, 7, 200, false⟩ ∧
    low_offer [some ⟨3, 7, 200, false⟩] ⟨4, -5, 2, false⟩ = none := by
  constructor
  · simp [eligibleFor]
  · norm_num [low_offer, lowOfferStep, eligibleFor]

/-! ## Evaluated runs (shared by the engine claims) -/

/-- Full evaluation of one step on `partialServeWorld`. -/
lemma ps_run : runCalc partialServeWorld 1 5 = some psWf := by
  have hphase : calcPhases partialServeWorld 1 = psW1 := by
    norm_num [calcPhases, partialServeWorld, psW1, psGw1, freshGateway,
      exampleLoad, exampleSource, Gateway.needsenergy, Gateway.hasenergy,
      Gateway.droopable, Gateway.curtailment_ratio, World.needsOf, World.hasOf,
      World.droopOf, World.curtailOf, World.findLoad, World.findSource,
      World.findStorage, World.findGateway, World.isGateway, List.find?_cons,
      List.find?_nil, List.filterMap_cons, List.filterMap_nil, List.map_cons,
      List.map_nil, List.sum_cons, List.sum_nil]
  have hrank : rank_bids (World.nodeBids psW1) = [psBid] := by
    norm_num [rank_bids, World.nodeBids, LoadD.bid, psW1, psGw1, freshGateway,
      exampleLoad, exampleSource, psBid, List.filterMap_cons,
      List.filterMap_nil]
  have hlow1 : low_offer (World.nodeOffers psW1 1) psBid = some psOffer := by
    norm_num [low_offer, World.nodeOffers, SourceD.offer, psW1, psGw1,
      freshGateway, exampleLoad, exampleSource, psBid, psOffer, lowOfferStep,
      eligibleFor, List.map_cons, List.map_nil, List.foldl_cons,
      List.foldl_nil]
  have hlow2 : low_offer (World.nodeOffers psW2 1) psBid = none := by
    norm_num [low_offer, World.nodeOffers, SourceD.offer, psW2, psGw2, psGw1,
      psLoad2, psSource2, freshGateway, exampleLoad, exampleSource, psBid,
      lowOfferStep, eligibleFor, List.map_cons, List.map_nil, List.foldl_cons,
      List.foldl_nil]
  have htx : transaction psW1 10 psOffer psBid = some (psW2, false) := by
    norm_num [transaction, psW1, psW2, psGw1, psGw2, psLoad2, psSource2,
      freshGateway, exampleLoad, exampleSource, psBid, psOffer, World.needsOf,
      World.findLoad, World.findSource, World.findStorage, World.findGateway,
      World.isGateway, World.device_power_io, LoadD.power_io,
      SourceD.power_io, World.updGateway, World.dest_gateway,
      World.parentGateway, List.find?_cons, List.find?_nil, List.map_cons,
      List.map_nil]
  have hne1 : World.needsOf psW1 1 = some (-10) := by
    norm_num [World.needsOf, World.findLoad, World.findSource,
      World.findStorage, psW1, exampleLoad, exampleSource, List.find?_cons]
  have hne2 : World.needsOf psW2 1 = some (-5) := by
    norm_num [World.needsOf, World.findLoad, World.findSource,
      World.findStorage, psW2, psLoad2, psSource2, exampleLoad, exampleSource,
      List.find?_cons]
  have hobj : psBid.obj_id = 1 := rfl
  have hset : settleLoop 10 psBid 5 psW1 = some psW2 := by
    rw [show (5 : ℕ) = 4 + 1 from rfl, settleLoop, hobj, hlow1, hne1]
    simp only [ne_eq, neg_eq_zero, OfNat.ofNat_ne_zero, not_false_eq_true,
      if_true, htx]
    show settleLoop 10 psBid (3 + 1) psW2 = some psW2
    rw [settleLoop, hobj, hlow2]
  have hfg : World.findGateway psW1 10 = some psGw1 := by
    norm_num [World.findGateway, psW1, psGw1, freshGateway, List.find?_cons]
  have hge : get_energy psW1 10 psBid 5 = some (psWf, false) := by
    rw [get_energy, hobj, hne1, hfg]
    simp only [hset, hne2]
    rw [if_pos (by norm_num [psBid])]
    rw [if_neg (by norm_num [psGw1, freshGateway])]
    norm_num [World.updGateway, psW2, psWf, psGw2, psGw1, freshGateway,
      List.map_cons, List.map_nil]
  have hdg : World.dest_gateway psW1 1 = some 10 := by
    norm_num [World.dest_gateway, World.isGateway, World.parentGateway,
      World.findGateway, psW1, psGw1, freshGateway, List.find?_cons,
      List.find?_nil]
  rw [runCalc]
  simp only [hphase, hrank]
  rw [settleBids, hobj, hdg]
  dsimp only
  rw [hge]
  dsimp only
  rw [settleBids]

/-- Full evaluation of one step on `crossDomainWorld`. -/
lemma cs_run : runCalc crossDomainWorld 1 5 = some csW2 := by
  have hphase : calcPhases crossDomainWorld 1 = csW1 := by
    norm_num [calcPhases, crossDomainWorld, csW1, csGw100, csGw101a, csGw102a,
      freshGateway, exampleLoad, exampleSource, Gateway.needsenergy,
      Gateway.hasenergy, Gateway.droopable, Gateway.curtailment_ratio,
      World.needsOf, World.hasOf, World.droopOf, World.curtailOf,
      World.findLoad, World.findSource, World.findStorage, World.findGateway,
      World.isGateway, List.find?_cons, List.find?_nil, List.filterMap_cons,
      List.filterMap_nil, List.map_cons, List.map_nil, List.sum_cons,
      List.sum_nil]
  have hrank : rank_bids (World.nodeBids csW1) = [psBid] := by
    norm_num [rank_bids, World.nodeBids, LoadD.bid, csW1, csGw100, csGw101a,
      csGw102a, freshGateway, exampleLoad, exampleSource, psBid,
      List.filterMap_cons, List.filterMap_nil]
  have hlow1 : low_offer (World.nodeOffers csW1 1) psBid = some csOffer := by
    norm_num [low_offer, World.nodeOffers, SourceD.offer, csW1, csGw100,
      csGw101a, csGw102a, freshGateway, exampleLoad, exampleSource, psBid,
      csOffer, lowOfferStep, eligibleFor, List.map_cons, List.map_nil,
      List.foldl_cons, List.foldl_nil]
  have hlow2 : low_offer (World.nodeOffers csW2 1) psBid =
      some ⟨2, 5, 0, false⟩ := by
    norm_num [low_offer, World.nodeOffers, SourceD.offer, csW2, csGw100,
      csGw101b, csGw102b, csGw101a, csGw102a, csLoad2, csSource2,
      freshGateway, exampleLoad, exampleSource, psBid, lowOfferStep,
      eligibleFor, List.map_cons, List.map_nil, List.foldl_cons,
      List.foldl_nil]
  have htx : transaction csW1 101 csOffer psBid = some (csW2, false) := by
    norm_num [transaction, csW1, csW2, csGw100, csGw101a, csGw102a, csGw101b,
      csGw102b, csLoad2, csSource2, freshGateway, exampleLoad, exampleSource,
      psBid, csOffer, World.needsOf, World.findLoad, World.findSource,
      World.findStorage, World.findGateway, World.isGateway,
      World.device_power_io, LoadD.power_io, SourceD.power_io,
      World.updGateway, World.dest_gateway, World.parentGateway,
      List.find?_cons, List.find?_nil, List.map_cons, List.map_nil]
  have hne1 : World.needsOf csW1 1 = some (-10) := by
    norm_num [World.needsOf, World.findLoad, World.findSource,
      World.findStorage, csW1, exampleLoad, exampleSource, List.find?_cons]
  have hne2 : World.needsOf csW2 1 = some 0 := by
    norm_num [World.needsOf, World.findLoad, World.findSource,
      World.findStorage, csW2, csLoad2, csSource2, exampleLoad, exampleSource,
      List.find?_cons]
  have hobj : psBid.obj_id = 1 := rfl
  have hset : settleLoop 101 psBid 5 csW1 = some csW2 := by
    rw [show (5 : ℕ) = 4 + 1 from rfl, settleLoop, hobj, hlow1, hne1]
    simp only [ne_eq, neg_eq_zero, OfNat.ofNat_ne_zero, not_false_eq_true,
      if_true, htx]
    show settleLoop 101 psBid (3 + 1) csW2 = some csW2
    rw [settleLoop, hobj, hlow2, hne2]
    norm_num
  have hfg : World.findGateway csW1 101 = some csGw101a := by
    norm_num [World.findGateway, csW1, csGw100, csGw101a, csGw102a,
      freshGateway, List.find?_cons]
  have hge : get_energy csW1 101 psBid 5 = some (csW2, true) := by
    rw [get_energy, hobj, hne1, hfg]
    simp only [hset, hne2]
    norm_num
  have hdg : World.dest_gateway csW1 1 = some 101 := by
    norm_num [World.dest_gateway, World.isGateway, World.parentGateway,
      World.findGateway, csW1, csGw100, csGw101a, csGw102a, freshGateway,
      List.find?_cons, List.find?_nil]
  rw [runCalc]
  simp only [hphase, hrank]
  rw [settleBids, hobj, hdg]
  dsimp only
  rw [hge]
  dsimp only
  rw [settleBids]

/-! ## Engine theorems on concrete scenarios (claims C2, C3, C4, C6, C8) -/

/-- C2: evaluation of the code at the failing input.  One step on
`partialServeWorld` (demand 10 Wh, supply 5 Wh, timestep 1 h) delivers half
the demand (the load's balance ends at -5), yet `get_energy` adds a full
1.0 to `lolh` — not the 0.5 the claim's proportional rule requires —
because `transaction` never updates `demand[key]` (the update is commented
out in the source, next to a `todo: there might be a bug here` note), so
`(initial_demand - demand[key]) / initial_demand` is always zero. -/
theorem lolh_adds_full_timestep_on_partial_service :
    (runCalc partialServeWorld 1 5).map
      (fun w => (w.gateways.map (fun g => g.lolh),
                 w.loads.map (fun l => l.balance))) = some ([1], [-5]) ∧
    ¬((1 : ℚ) = 1 / 2) := by
  rw [ps_run]
  constructor
  · norm_num [psWf, psW2, psGw2, psGw1, psLoad2, freshGateway, exampleLoad]
  · norm_num

/-- C3 (counterexample): the same partially-served step adds the *signed*
residual `needsenergy()` (-5) to `shortfall`, which drops from 0 to -5 —
not a non-negative magnitude, and not non-decreasing. -/
theorem shortfall_accumulates_negative_counterexample :
    (runCalc partialServeWorld 1 5).map
      (fun w => w.gateways.map (fun g => g.shortfall)) = some [-5] ∧
    ¬(0 ≤ (-5 : ℚ)) := by
  rw [ps_run]
  constructor
  · norm_num [psWf, psW2, psGw2, psGw1, freshGateway]
  · norm_num

/-- C4 (counterexample): after the cross-domain settlement in
`crossDomainWorld`, the load-side gateway (gid 101) logs `balance = 0` while
`source + demand = -10`: the equation `source[t] + demand[t] == balance[t]`
does not survive settlement, because `transaction` moves `balance` (with
`credits`/`debits`) but never touches `source`/`demand`. -/
theorem balance_eq_source_plus_demand_counterexample :
    (runCalc crossDomainWorld 1 5).map
      (fun w => w.gateways.map (fun g => (g.balance, g.source + g.demand))) =
      some [(0, 0), (0, -10), (5, 15)] ∧
    ¬((0 : ℚ) = -10) := by
  rw [cs_run]
  constructor
  · norm_num [csW2, csGw100, csGw101b, csGw102b, csGw101a, csGw102a,
      freshGateway]
  · norm_num

/-- C8: evaluation of the code at the failing input.  On a domain with no
generation, `Gateway.eta` divides by the zero generation total and raises
`ZeroDivisionError` (modelled `none`) instead of returning the sentinel 0
the spec requires, while `capacity_factor` is guarded by `if self.STC():`
and safely returns 0. -/
theorem eta_raises_on_zero_generation :
    Gateway.eta zeroGenWorld = none ∧
    Gateway.capacity_factor zeroGenWorld (freshGateway 20 [1]) = some 0 := by
  constructor
  · norm_num [Gateway.eta, zeroGenWorld, List.map_nil, List.sum_nil]
  · norm_num [Gateway.capacity_factor, Gateway.STC, zeroGenWorld,
      freshGateway, World.findSource, List.find?_nil, List.map_cons,
      List.map_nil, List.sum_cons, List.sum_nil]

/-- C6 (amended): a source asked to deliver more than its available
balance raises (`Source.power_io` → `none`), but a settlement transaction
whose matched delta is exactly zero does **not** raise: it logs the
`'Transaction for 0'` error (the returned flag) and completes normally. -/
theorem zero_transaction_logs_overcommit_raises :
    (∀ (s : SourceD) (energy : ℚ), s.balance < |energy| →
      SourceD.power_io s energy = none) ∧
    (∀ (w : World) (selfG : ℕ) (offer : Offer) (bid : Bid) (out : World × Bool),
      transaction w selfG offer bid = some out →
      (out.2 = true ↔ (w.needsOf bid.obj_id).map
        (fun ne => min |ne| offer.wh) = some 0)) := by
  constructor
  · intro s energy h
    unfold SourceD.power_io
    rw [if_pos h]
  · intro w selfG offer bid out htx
    unfold transaction at htx
    split at htx
    · exact absurd htx (by simp)
    · next ne hne =>
      dsimp only at htx
      split at htx
      · exact absurd htx (by simp)
      · split at htx
        · exact absurd htx (by simp)
        · split at htx
          · exact absurd htx (by simp)
          · next sd hsd =>
            rw [← Option.some.inj htx, hne]
            simp only [Option.map_some]
            constructor
            · intro hdec
              have := of_decide_eq_true hdec
              simp [this]
            · intro hsome
              have : min |ne| offer.wh = 0 := by simpa using hsome
              simp [this]

/-- C6 (counterexample): a concrete zero-quantity transaction (a load
needing nothing matched against a 5 Wh offer) completes and returns,
merely flagging the logged error — it does not raise, contradicting the
claim that both invariant violations are fatal. -/
theorem zero_transaction_does_not_raise_counterexample :
    transaction zeroDeltaWorld 30 ⟨2, 5, 0, false⟩ ⟨1, 0, 7 / 100, false⟩ =
      some (zeroDeltaWorld, true) ∧
    some (zeroDeltaWorld, true) ≠ (none : Option (World × Bool)) := by
  constructor
  · norm_num [transaction, zeroDeltaWorld, freshGateway, exampleLoad,
      exampleSource, World.needsOf, World.findLoad, World.findSource,
      World.findStorage, World.findGateway, World.isGateway,
      World.device_power_io, LoadD.power_io, SourceD.power_io,
      World.updGateway, World.dest_gateway, World.parentGateway,
      List.find?_cons, List.find?_nil, List.map_cons, List.map_nil]
  · simp

/-- Witness for C6 (amended): a source holding 5 Wh asked for 10 Wh
raises. -/
theorem zero_transaction_logs_overcommit_raises_witness :
    SourceD.power_io (exampleSource 2 5) 10 = none :=
  zero_transaction_logs_overcommit_raises.1 (exampleSource 2 5) 10
    (by norm_num [exampleSource])

/-! ## The settlement ledger invariant (claim C4) -/

/-- The ledger equation a gateway's current-step entries satisfy after
settlement: balance equals source plus demand plus the step's credits and
debits. -/
def ledgerOK (g : GatewayD) : Prop :=
  g.balance = g.source + g.demand + g.credits + g.debits

/-- The ledger equation holds for every connected domain. -/
def BalInv (w : World) : Prop := ∀ g ∈ w.gateways, ledgerOK g

/-- A device-level `power_io` never touches any gateway's books. -/
lemma device_power_io_gateways {w w' : World} {i : ℕ} {e : ℚ}
    (h : w.device_power_io i e = some w') : w'.gateways = w.gateways := by
  unfold World.device_power_io at h
  split at h
  · cases h; rfl
  · split at h
    · cases h; rfl
    · split at h
      · split at h
        · exact absurd h (by simp)
        · cases h; rfl
      · exact absurd h (by simp)

/-- A gateway-map update preserves any pointwise property preserved by the
update function. -/
lemma updGateway_pres {P : GatewayD → Prop} (w : World) (i : ℕ)
    (f : GatewayD → GatewayD) (hw : ∀ g ∈ w.gateways, P g)
    (hf : ∀ g, P g → P (f g)) :
    ∀ g ∈ (w.updGateway i f).gateways, P g := by
  intro g hg
  simp only [World.updGateway, List.mem_map] at hg
  obtain ⟨g0, hg0, rfl⟩ := hg
  by_cases h : g0.gid = i
  · rw [if_pos h]; exact hf g0 (hw g0 hg0)
  · rw [if_neg h]; exact hw g0 hg0

/-- `transaction` preserves the ledger equation: the destination gateway
books `+delta` on both `balance` and `credits`, the source's gateway books
`-delta` on both `balance` and `debits`. -/
lemma transaction_BalInv {w : World} {selfG : ℕ} {offer : Offer} {bid : Bid}
    {out : World × Bool} (hinv : BalInv w)
    (h : transaction w selfG offer bid = some out) : BalInv out.1 := by
  unfold transaction at h
  split at h
  · exact absurd h (by simp)
  · next ne hne =>
    dsimp only at h
    split at h
    · exact absurd h (by simp)
    · next w1 hp1 =>
      split at h
      · exact absurd h (by simp)
      · next w2 hp2 =>
        split at h
        · exact absurd h (by simp)
        · next sd hsd =>
          cases h
          dsimp only
          have hinv1 : BalInv w1 := by
            unfold BalInv
            rw [device_power_io_gateways hp1]
            exact hinv
          have hinv1' : BalInv (w1.updGateway selfG (fun g =>
              { g with balance := g.balance + min |ne| offer.wh,
                       credits := g.credits + min |ne| offer.wh })) := by
            refine updGateway_pres _ _ _ hinv1 ?_
            intro g hg
            unfold ledgerOK at hg ⊢
            dsimp only
            linarith
          have hinv2 : BalInv w2 := by
            unfold BalInv
            rw [device_power_io_gateways hp2]
            exact hinv1'
          refine updGateway_pres _ _ _ hinv2 ?_
          intro g hg
          unfold ledgerOK at hg ⊢
          dsimp only
          linarith

/-- The settlement loop preserves the ledger equation. -/
lemma settleLoop_BalInv {selfG : ℕ} {bid : Bid} :
    ∀ (fuel : ℕ) {w w' : World}, BalInv w →
      settleLoop selfG bid fuel w = some w' → BalInv w' := by
  intro fuel
  induction fuel with
  | zero => intro w w' hinv h; cases h; exact hinv
  | succ n ih =>
    intro w w' hinv h
    rw [settleLoop] at h
    split at h
    · cases h; exact hinv
    · split at h
      · exact absurd h (by simp)
      · split at h
        · split at h
          · exact absurd h (by simp)
          · next wp hp =>
            exact ih (transaction_BalInv hinv hp) h
        · cases h; exact hinv

/-- `get_energy` preserves the ledger equation (the shortage branch only
touches `outage`, `shortfall` and `lolh`). -/
lemma get_energy_BalInv {w : World} {selfG : ℕ} {bid : Bid} {fuel : ℕ}
    {out : World × Bool} (hinv : BalInv w)
    (h : get_energy w selfG bid fuel = some out) : BalInv out.1 := by
  unfold get_energy at h
  split at h
  · exact absurd h (by simp)
  · split at h
    · exact absurd h (by simp)
    · dsimp only at h
      split at h
      · exact absurd h (by simp)
      · next w1 hset =>
        have hinv1 : BalInv w1 := settleLoop_BalInv fuel hinv hset
        split at h
        · exact absurd h (by simp)
        · split at h
          · split at h
            · exact absurd h (by simp)
            · cases h
              dsimp only
              refine updGateway_pres _ _ _ hinv1 ?_
              intro g hg
              unfold ledgerOK at hg ⊢
              dsimp only
              linarith
          · cases h
            exact hinv1

/-- Settling a list of bids preserves the ledger equation. -/
lemma settleBids_BalInv {fuel : ℕ} :
    ∀ (bids : List Bid) {w w' : World}, BalInv w →
      settleBids fuel w bids = some w' → BalInv w' := by
  intro bids
  induction bids with
  | nil => intro w w' hinv h; cases h; exact hinv
  | cons b rest ih =>
    intro w w' hinv h
    rw [settleBids] at h
    split at h
    · exact absurd h (by simp)
    · split at h
      · exact absurd h (by simp)
      · next out hge =>
        exact ih (get_energy_BalInv hinv hge) h

/-- The logging phases establish the ledger equation: `balance` is set to
`source + demand` with zeroed `credits`/`debits`. -/
lemma calcPhases_BalInv (w : World) (hours : ℚ) :
    BalInv (calcPhases w hours) := by
  intro g hg
  simp only [calcPhases, List.mem_map] at hg
  obtain ⟨g3, ⟨g2, ⟨g1, ⟨g0, hg0, rfl⟩, rfl⟩, rfl⟩, rfl⟩ := hg
  unfold ledgerOK
  dsimp only
  ring

/-- C4 (amended): for every Domain and the timestamp logged by `calc`, the
equation that holds at every point of the step — including after settlement
— is `balance[t] = source[t] + demand[t] + credits[t] + debits[t]`.  The
claim's `source[t] + demand[t] == balance[t]` holds when the balance phase
writes it but is not preserved by cross-domain transactions, which move
`balance` together with `credits`/`debits` while leaving `source`/`demand`
untouched. -/
theorem balance_ledger_after_calc (w w' : World) (hours : ℚ) (fuel : ℕ)
    (h : runCalc w hours fuel = some w') :
    ∀ g ∈ w'.gateways,
      g.balance = g.source + g.demand + g.credits + g.debits := by
  unfold runCalc at h
  exact settleBids_BalInv _ (calcPhases_BalInv w hours) h

/-- Witness for C4 (amended): the importing gateway of the evaluated
cross-domain run satisfies the ledger equation (0 = 0 + (-10) + 10 + 0). -/
theorem balance_ledger_after_calc_witness :
    csGw101b.balance =
      csGw101b.source + csGw101b.demand + csGw101b.credits + csGw101b.debits :=
  balance_ledger_after_calc crossDomainWorld csW2 1 5 cs_run csGw101b
    (by
      show csGw101b ∈ [csGw100, csGw101b, csGw102b]
      exact List.mem_cons_of_mem _ (List.mem_cons_self _ _))

/-! ## Well-formedness and the shortfall accounting (claim C3) -/

/-- All device ids in the network are pairwise distinct — in Python every
node is a distinct object and `id()` values cannot collide. -/
def WFids (w : World) : Prop :=
  (w.loads.map (fun l => l.lid) ++ w.sources.map (fun s => s.sid) ++
    w.storages.map (fun st => st.sid)).Nodup

/-- The device-level states an engine step starts from and maintains:
distinct ids, loads carrying non-positive residual demand (demands are
negative by convention), sources carrying non-negative cached output, and
storage states within capacity. -/
def WF (w : World) : Prop :=
  WFids w ∧ (∀ l ∈ w.loads, l.balance ≤ 0) ∧
  (∀ s ∈ w.sources, 0 ≤ s.balance) ∧
  (∀ st ∈ w.storages, 0 ≤ st.dev.state ∧ st.dev.state ≤ st.dev.nominal_capacity)

/-- Under `WF`, every `needsenergy()` reading is non-positive. -/
lemma needsOf_nonpos {w : World} {i : ℕ} {ne : ℚ} (hwf : WF w)
    (h : w.needsOf i = some ne) : ne ≤ 0 := by
  unfold World.needsOf at h
  split at h
  · next l hl =>
    cases h
    exact hwf.2.1 l (List.mem_of_find?_eq_some hl)
  · split at h
    · next st hst =>
      cases h
      have := (hwf.2.2.2 st (List.mem_of_find?_eq_some hst)).2
      unfold IdealStorage.needsenergy
      linarith
    · split at h
      · cases h; exact le_refl 0
      · exact absurd h (by simp)

/-- Under `WF`, every offer produced by a network node carries a
non-negative quantity (`hasenergy()` of a source or a storage). -/
lemma nodeOffers_wh_nonneg {w : World} {d : ℕ} {o : Offer} (hwf : WF w)
    (h : some o ∈ w.nodeOffers d) : 0 ≤ o.wh := by
  unfold World.nodeOffers at h
  rcases List.mem_append.mp h with h | h
  · obtain ⟨s, hs, hso⟩ := List.mem_map.mp h
    unfold SourceD.offer at hso
    split_ifs at hso
    cases Option.some.inj hso
    exact hwf.2.2.1 s hs
  · obtain ⟨st, hst, hso⟩ := List.mem_map.mp h
    unfold StorageNode.offer at hso
    dsimp only at hso
    split_ifs at hso <;>
      first
        | exact Option.noConfusion hso
        | (cases Option.some.inj hso
           simpa [IdealStorage.hasenergy] using (hwf.2.2.2 st hst).1)

/-- The offer selected by `low_offer` is one of the produced offers. -/
lemma low_offer_mem {offers : List (Option Offer)} {bid : Bid} {o : Offer}
    (h : low_offer offers bid = some o) : some o ∈ offers := by
  obtain ⟨-, hsome⟩ := lowOffer_foldl_inv bid offers (none, 100)
    (fun _ => rfl) (fun o' ho' => by simp at ho')
  rcases (hsome o h).2.2.2 with hm | hm
  · exact hm
  · simp at hm

/-- With distinct ids, the load `find_node` resolves is the only load with
that id. -/
lemma nodup_find_load {w : World} {i : ℕ} {l : LoadD} (hids : WFids w)
    (h : w.findLoad i = some l) : ∀ l' ∈ w.loads, l'.lid = i → l' = l := by
  intro l' hl' hlid
  have hmem : l ∈ w.loads := List.mem_of_find?_eq_some h
  have hl : l.lid = i := by
    have := List.find?_some h
    exact of_decide_eq_true this
  have hnodup : (w.loads.map (fun x => x.lid)).Nodup := by
    unfold WFids at hids
    exact ((hids.of_append_left).of_append_left)
  exact List.inj_on_of_nodup_map hnodup hl' hmem (by rw [hlid, hl])

/-- With distinct ids, the source `find_node` resolves is the only source
with that id. -/
lemma nodup_find_source {w : World} {i : ℕ} {s : SourceD} (hids : WFids w)
    (h : w.findSource i = some s) : ∀ s' ∈ w.sources, s'.sid = i → s' = s := by
  intro s' hs' hsid
  have hmem : s ∈ w.sources := List.mem_of_find?_eq_some h
  have hs : s.sid = i := by
    have := List.find?_some h
    exact of_decide_eq_true this
  have hnodup : (w.sources.map (fun x => x.sid)).Nodup := by
    unfold WFids at hids
    exact (hids.of_append_left).of_append_right
  exact List.inj_on_of_nodup_map hnodup hs' hmem (by rw [hsid, hs])


/-- A keyed elementwise load update does not change the id column. -/
lemma loads_update_lids (ls : List LoadD) (i : ℕ) (f : LoadD → LoadD)
    (hf : ∀ l, (f l).lid = l.lid) :
    (ls.map (fun l => if l.lid = i then f l else l)).map (fun l => l.lid) =
      ls.map (fun l => l.lid) := by
  rw [List.map_map]
  refine List.map_congr_left ?_
  intro x _
  by_cases h : x.lid = i
  · simp only [Function.comp_apply, if_pos h, hf]
  · simp only [Function.comp_apply, if_neg h]

/-- A keyed elementwise source update does not change the id column. -/
lemma sources_update_sids (ls : List SourceD) (i : ℕ) (f : SourceD → SourceD)
    (hf : ∀ s, (f s).sid = s.sid) :
    (ls.map (fun s => if s.sid = i then f s else s)).map (fun s => s.sid) =
      ls.map (fun s => s.sid) := by
  rw [List.map_map]
  refine List.map_congr_left ?_
  intro x _
  by_cases h : x.sid = i
  · simp only [Function.comp_apply, if_pos h, hf]
  · simp only [Function.comp_apply, if_neg h]

/-- A keyed elementwise storage update does not change the id column. -/
lemma storages_update_sids (ls : List StorageNode) (i : ℕ)
    (f : StorageNode → StorageNode) (hf : ∀ st, (f st).sid = st.sid) :
    (ls.map (fun st => if st.sid = i then f st else st)).map (fun st => st.sid) =
      ls.map (fun st => st.sid) := by
  rw [List.map_map]
  refine List.map_congr_left ?_
  intro x _
  by_cases h : x.sid = i
  · simp only [Function.comp_apply, if_pos h, hf]
  · simp only [Function.comp_apply, if_neg h]

/-- Delivering `0 ≤ δ ≤ |needsenergy|` to a bid's destination preserves
`WF`: a load's balance rises toward but never past zero, a storage clamps,
a source's guarded balance only grows. -/
lemma device_power_io_WF_dest {w w' : World} {i : ℕ} {δ ne : ℚ} (hwf : WF w)
    (hne : w.needsOf i = some ne) (h0 : 0 ≤ δ) (h1 : δ ≤ |ne|)
    (h : w.device_power_io i δ = some w') : WF w' := by
  unfold World.device_power_io at h
  split at h
  · next l hfind =>
    cases h
    have hnele : ne = l.balance := by
      unfold World.needsOf at hne
      rw [hfind] at hne
      dsimp only at hne
      exact (Option.some.inj hne).symm
    refine ⟨?_, ?_, hwf.2.2.1, hwf.2.2.2⟩
    · unfold WFids
      rw [loads_update_lids w.loads i (fun l' => LoadD.power_io l' δ)
        (fun l' => rfl)]
      exact hwf.1
    · intro l'' hl''
      obtain ⟨l', hl', rfl⟩ := List.mem_map.mp hl''
      by_cases hc : l'.lid = i
      · rw [if_pos hc]
        have heq : l' = l := nodup_find_load hwf.1 hfind l' hl' hc
        subst heq
        have hb : l'.balance ≤ 0 := hwf.2.1 l' hl'
        have habs : |ne| = -ne := abs_of_nonpos (by rw [hnele]; exact hb)
        unfold LoadD.power_io
        dsimp only
        rw [hnele] at habs h1
        linarith
      · rw [if_neg hc]
        exact hwf.2.1 l' hl'
  · split at h
    · next st hfind =>
      cases h
      refine ⟨?_, hwf.2.1, hwf.2.2.1, ?_⟩
      · unfold WFids
        rw [storages_update_sids w.storages i
          (fun st' => { st' with dev := (st'.dev.power_io δ 1).1 })
          (fun st' => rfl)]
        exact hwf.1
      · intro st'' hst''
        obtain ⟨st', hst', rfl⟩ := List.mem_map.mp hst''
        have hb := hwf.2.2.2 st' hst'
        by_cases hc : st'.sid = i
        · rw [if_pos hc]
          dsimp only
          have hbd := power_io_state_bounds st'.dev δ 1 hb.1 hb.2
          have hcap := power_io_capacity st'.dev δ 1
          exact ⟨hbd.1, by rw [hcap]; exact hbd.2⟩
        · rw [if_neg hc]
          exact hb
    · split at h
      · next s hfind =>
        split at h
        · exact Option.noConfusion h
        · cases h
          refine ⟨?_, hwf.2.1, ?_, hwf.2.2.2⟩
          · unfold WFids
            rw [sources_update_sids w.sources i
              (fun s' => { s' with balance := s'.balance + δ, debits := s'.debits + δ })
              (fun s' => rfl)]
            exact hwf.1
          · intro s'' hs''
            obtain ⟨s', hs', rfl⟩ := List.mem_map.mp hs''
            have hb := hwf.2.2.1 s' hs'
            by_cases hc : s'.sid = i
            · rw [if_pos hc]
              dsimp only
              linarith
            · rw [if_neg hc]
              exact hb
      · exact Option.noConfusion h

/-- Withdrawing `δ ≥ 0` from an offering node preserves `WF`: a storage
clamps at its floor and a source's own over-commit guard keeps its balance
non-negative. -/
lemma device_power_io_WF_src {w w' : World} {i : ℕ} {δ : ℚ} (hwf : WF w)
    (h0 : 0 ≤ δ) (h : w.device_power_io i (-δ) = some w') : WF w' := by
  unfold World.device_power_io at h
  split at h
  · next l hfind =>
    cases h
    refine ⟨?_, ?_, hwf.2.2.1, hwf.2.2.2⟩
    · unfold WFids
      rw [loads_update_lids w.loads i (fun l' => LoadD.power_io l' (-δ))
        (fun l' => rfl)]
      exact hwf.1
    · intro l'' hl''
      obtain ⟨l', hl', rfl⟩ := List.mem_map.mp hl''
      have hb := hwf.2.1 l' hl'
      by_cases hc : l'.lid = i
      · rw [if_pos hc]
        unfold LoadD.power_io
        dsimp only
        linarith
      · rw [if_neg hc]
        exact hb
  · split at h
    · next st hfind =>
      cases h
      refine ⟨?_, hwf.2.1, hwf.2.2.1, ?_⟩
      · unfold WFids
        rw [storages_update_sids w.storages i
          (fun st' => { st' with dev := (st'.dev.power_io (-δ) 1).1 })
          (fun st' => rfl)]
        exact hwf.1
      · intro st'' hst''
        obtain ⟨st', hst', rfl⟩ := List.mem_map.mp hst''
        have hb := hwf.2.2.2 st' hst'
        by_cases hc : st'.sid = i
        · rw [if_pos hc]
          dsimp only
          have hbd := power_io_state_bounds st'.dev (-δ) 1 hb.1 hb.2
          have hcap := power_io_capacity st'.dev (-δ) 1
          exact ⟨hbd.1, by rw [hcap]; exact hbd.2⟩
        · rw [if_neg hc]
          exact hb
    · split at h
      · next s hfind =>
        split at h
        · exact Option.noConfusion h
        · next hguard =>
          cases h
          have hsguard : |(-δ)| ≤ s.balance := by
            by_contra hcon
            rw [SourceD.power_io, if_pos (lt_of_not_le hcon)] at hguard
            exact Option.noConfusion hguard
          refine ⟨?_, hwf.2.1, ?_, hwf.2.2.2⟩
          · unfold WFids
            rw [sources_update_sids w.sources i
              (fun s' => { s' with balance := s'.balance + (-δ), debits := s'.debits + (-δ) })
              (fun s' => rfl)]
            exact hwf.1
          · intro s'' hs''
            obtain ⟨s', hs', rfl⟩ := List.mem_map.mp hs''
            by_cases hc : s'.sid = i
            · rw [if_pos hc]
              have heq : s' = s := nodup_find_source hwf.1 hfind s' hs' hc
              subst heq
              dsimp only
              rw [abs_neg, abs_of_nonneg h0] at hsguard
              linarith
            · rw [if_neg hc]
              exact hwf.2.2.1 s' hs'
      · exact Option.noConfusion h


/-- The id and cumulative shortfall of a gateway — the books `transaction`
never touches. -/
def gwBooks (g : GatewayD) : ℕ × ℚ := (g.gid, g.shortfall)

/-- Pointwise relation between a gateway before and after a step: same id,
shortfall not increased. -/
def shortfallRel (g g' : GatewayD) : Prop :=
  g'.gid = g.gid ∧ g'.shortfall ≤ g.shortfall

/-- A gateway update that leaves `gid` and `shortfall` alone leaves the
books column unchanged. -/
lemma updGateway_books (w : World) (i : ℕ) (f : GatewayD → GatewayD)
    (hf : ∀ g, (f g).gid = g.gid ∧ (f g).shortfall = g.shortfall) :
    (w.updGateway i f).gateways.map gwBooks = w.gateways.map gwBooks := by
  unfold World.updGateway
  dsimp only
  rw [List.map_map]
  refine List.map_congr_left ?_
  intro g _
  by_cases h : g.gid = i
  · simp only [Function.comp_apply, if_pos h, gwBooks, (hf g).1, (hf g).2]
  · simp only [Function.comp_apply, if_neg h]

/-- A transaction with a non-negative offered quantity preserves `WF` and
never touches any gateway's `shortfall`. -/
lemma transaction_WF {w : World} {selfG : ℕ} {offer : Offer} {bid : Bid}
    {out : World × Bool} (hwf : WF w) (hwh : 0 ≤ offer.wh)
    (h : transaction w selfG offer bid = some out) :
    WF out.1 ∧ out.1.gateways.map gwBooks = w.gateways.map gwBooks := by
  unfold transaction at h
  split at h
  · exact Option.noConfusion h
  · next ne hne =>
    dsimp only at h
    split at h
    · exact Option.noConfusion h
    · next w1 hp1 =>
      split at h
      · exact Option.noConfusion h
      · next w2 hp2 =>
        split at h
        · exact Option.noConfusion h
        · next sd hsd =>
          cases h
          dsimp only
          have hd0 : 0 ≤ min |ne| offer.wh := le_min (abs_nonneg ne) hwh
          have hwf1 : WF w1 :=
            device_power_io_WF_dest hwf hne hd0 (min_le_left _ _) hp1
          have hwf1' : WF (w1.updGateway selfG (fun g =>
              { g with balance := g.balance + min |ne| offer.wh,
                       credits := g.credits + min |ne| offer.wh })) := hwf1
          have hwf2 : WF w2 := device_power_io_WF_src hwf1' hd0 hp2
          refine ⟨hwf2, ?_⟩
          rw [updGateway_books w2 sd
              (fun g => { g with debits := g.debits - min |ne| offer.wh, balance := g.balance - min |ne| offer.wh })
              (fun g => ⟨rfl, rfl⟩),
            device_power_io_gateways hp2,
            updGateway_books w1 selfG
              (fun g => { g with balance := g.balance + min |ne| offer.wh, credits := g.credits + min |ne| offer.wh })
              (fun g => ⟨rfl, rfl⟩),
            device_power_io_gateways hp1]

/-- The settlement loop preserves `WF` and the books: every executed
transaction uses an offer drawn from the network's nodes, whose quantity is
non-negative under `WF`. -/
lemma settleLoop_WF_books {selfG : ℕ} {bid : Bid} :
    ∀ (fuel : ℕ) {w w' : World}, WF w →
      settleLoop selfG bid fuel w = some w' →
      WF w' ∧ w'.gateways.map gwBooks = w.gateways.map gwBooks := by
  intro fuel
  induction fuel with
  | zero => intro w w' hwf h; cases h; exact ⟨hwf, rfl⟩
  | succ n ih =>
    intro w w' hwf h
    rw [settleLoop] at h
    split at h
    · cases h; exact ⟨hwf, rfl⟩
    · next offer hlow =>
      split at h
      · exact Option.noConfusion h
      · split at h
        · split at h
          · exact Option.noConfusion h
          · next out htx =>
            have hwh : 0 ≤ offer.wh :=
              nodeOffers_wh_nonneg hwf (low_offer_mem hlow)
            obtain ⟨hwf1, hbooks1⟩ := transaction_WF hwf hwh htx
            obtain ⟨hwf2, hbooks2⟩ := ih hwf1 h
            exact ⟨hwf2, by rw [hbooks2, hbooks1]⟩
        · cases h; exact ⟨hwf, rfl⟩

/-- Equal books give the (reflexive) shortfall relation pointwise. -/
lemma forall₂_shortfall_of_books_eq :
    ∀ {l l' : List GatewayD}, l'.map gwBooks = l.map gwBooks →
      List.Forall₂ shortfallRel l l' := by
  intro l
  induction l with
  | nil =>
    intro l' h
    cases l' with
    | nil => exact List.Forall₂.nil
    | cons g' rest' => simp at h
  | cons g rest ih =>
    intro l' h
    cases l' with
    | nil => simp at h
    | cons g' rest' =>
      simp only [List.map_cons, List.cons.injEq] at h
      have h1 : g'.gid = g.gid ∧ g'.shortfall = g.shortfall := by
        have := h.1
        unfold gwBooks at this
        exact ⟨congrArg Prod.fst this, congrArg Prod.snd this⟩
      exact List.Forall₂.cons ⟨h1.1, le_of_eq h1.2⟩ (ih h.2)

/-- The pointwise shortfall relation composes. -/
lemma forall₂_shortfall_trans :
    ∀ {a b c : List GatewayD}, List.Forall₂ shortfallRel a b →
      List.Forall₂ shortfallRel b c → List.Forall₂ shortfallRel a c := by
  intro a
  induction a with
  | nil =>
    intro b c hab hbc
    cases hab
    cases hbc
    exact List.Forall₂.nil
  | cons g rest ih =>
    intro b c hab hbc
    cases hab with
    | cons h1 h2 =>
      cases hbc with
      | cons h3 h4 =>
        exact List.Forall₂.cons
          ⟨h3.1.trans h1.1, h3.2.trans h1.2⟩ (ih h2 h4)

/-- A gateway update related to the identity pointwise yields the
shortfall relation against the original list. -/
lemma updGateway_forall₂ (w : World) (i : ℕ) (f : GatewayD → GatewayD)
    (hf : ∀ g, shortfallRel g (f g)) :
    List.Forall₂ shortfallRel w.gateways (w.updGateway i f).gateways := by
  unfold World.updGateway
  dsimp only
  induction w.gateways with
  | nil => exact List.Forall₂.nil
  | cons g rest ih =>
    simp only [List.map_cons]
    refine List.Forall₂.cons ?_ ih
    by_cases h : g.gid = i
    · rw [if_pos h]; exact hf g
    · rw [if_neg h]; exact ⟨rfl, le_refl _⟩

/-- `get_energy` preserves `WF` and never increases any gateway's
`shortfall`: the only write adds the signed residual `needsenergy()`,
which is non-positive under `WF`. -/
lemma get_energy_WF_shortfall {w : World} {selfG : ℕ} {bid : Bid} {fuel : ℕ}
    {out : World × Bool} (hwf : WF w)
    (h : get_energy w selfG bid fuel = some out) :
    WF out.1 ∧ List.Forall₂ shortfallRel w.gateways out.1.gateways := by
  unfold get_energy at h
  split at h
  · exact Option.noConfusion h
  · split at h
    · exact Option.noConfusion h
    · dsimp only at h
      split at h
      · exact Option.noConfusion h
      · next w1 hset =>
        obtain ⟨hwf1, hbooks⟩ := settleLoop_WF_books fuel hwf hset
        have hfa1 : List.Forall₂ shortfallRel w.gateways w1.gateways :=
          forall₂_shortfall_of_books_eq hbooks
        split at h
        · exact Option.noConfusion h
        · next ne hne =>
          split at h
          · split at h
            · exact Option.noConfusion h
            · cases h
              dsimp only
              have hnele : ne ≤ 0 := needsOf_nonpos hwf1 hne
              refine ⟨hwf1, forall₂_shortfall_trans hfa1 ?_⟩
              refine updGateway_forall₂ w1 selfG _ ?_
              intro g
              exact ⟨rfl, by dsimp only; linarith⟩
          · cases h
            exact ⟨hwf1, hfa1⟩

/-- Settling a bid list preserves `WF` and never increases shortfalls. -/
lemma settleBids_WF_shortfall {fuel : ℕ} :
    ∀ (bids : List Bid) {w w' : World}, WF w →
      settleBids fuel w bids = some w' →
      WF w' ∧ List.Forall₂ shortfallRel w.gateways w'.gateways := by
  intro bids
  induction bids with
  | nil =>
    intro w w' hwf h
    cases h
    exact ⟨hwf, forall₂_shortfall_of_books_eq rfl⟩
  | cons b rest ih =>
    intro w w' hwf h
    rw [settleBids] at h
    split at h
    · exact Option.noConfusion h
    · split at h
      · exact Option.noConfusion h
      · next out hge =>
        obtain ⟨hwf1, hfa1⟩ := get_energy_WF_shortfall hwf hge
        obtain ⟨hwf2, hfa2⟩ := ih hwf1 h
        exact ⟨hwf2, forall₂_shortfall_trans hfa1 hfa2⟩

/-- The logging phases leave every gateway's id and shortfall alone. -/
lemma calcPhases_books (w : World) (hours : ℚ) :
    (calcPhases w hours).gateways.map gwBooks = w.gateways.map gwBooks := by
  unfold calcPhases
  dsimp only
  rw [List.map_map, List.map_map, List.map_map, List.map_map]
  exact List.map_congr_left (fun g _ => rfl)

/-- The logging phases do not touch the device lists, so `WF` carries
over. -/
lemma calcPhases_WF (w : World) (hours : ℚ) (hwf : WF w) :
    WF (calcPhases w hours) := hwf


/-- C3 (amended): when a non-storage bid ends a settlement unsatisfied the
gateway records one outage event for the timestep (`outage[key] = 1`) and
adds the **signed** residual `needsenergy()` to `shortfall`; since that
residual is non-positive for every well-formed network, `shortfall` is
non-*increasing* over a run (the magnitude convention of the claim is
inverted) and is never reset by the engine. -/
theorem shortfall_signed_residual_nonincreasing :
    (∀ (w : World) (selfG : ℕ) (bid : Bid) (fuel : ℕ) (w' : World),
      get_energy w selfG bid fuel = some (w', false) →
      ∀ g ∈ w'.gateways, g.gid = selfG → g.outage = 1) ∧
    (∀ (w w' : World) (hours : ℚ) (fuel : ℕ), WF w →
      runCalc w hours fuel = some w' →
      List.Forall₂ shortfallRel w.gateways w'.gateways) := by
  constructor
  · intro w selfG bid fuel w' h
    unfold get_energy at h
    split at h
    · exact Option.noConfusion h
    · split at h
      · exact Option.noConfusion h
      · dsimp only at h
        split at h
        · exact Option.noConfusion h
        · next w1 hset =>
          split at h
          · exact Option.noConfusion h
          · next ne hne =>
            split at h
            · split at h
              · exact Option.noConfusion h
              · cases h
                intro g hg hgid
                simp only [World.updGateway, List.mem_map] at hg
                obtain ⟨g0, hg0, rfl⟩ := hg
                by_cases hc : g0.gid = selfG
                · rw [if_pos hc]
                · rw [if_neg hc] at hgid ⊢
                  exact absurd hgid hc
            · simp at h
  · intro w w' hours fuel hwf h
    unfold runCalc at h
    obtain ⟨hwf2, hfa⟩ :=
      settleBids_WF_shortfall _ (calcPhases_WF w hours hwf) h
    exact forall₂_shortfall_trans
      (forall₂_shortfall_of_books_eq (calcPhases_books w hours)) hfa

/-- Witness for C3 (amended): across the evaluated partially-served step,
every gateway's shortfall moves downward (0 to -5). -/
theorem shortfall_signed_residual_nonincreasing_witness :
    List.Forall₂ shortfallRel partialServeWorld.gateways psWf.gateways :=
  shortfall_signed_residual_nonincreasing.2 partialServeWorld psWf 1 5
    (by
      refine ⟨?_, ?_, ?_, ?_⟩ <;>
        norm_num [WFids, partialServeWorld, exampleLoad, exampleSource])
    ps_run

end Poplar
